import Mathlib

/-!
# Collision layer of four-way-deadlock

A shallow embedding of `namespace Collision` from `four way deadlock/main.cpp`
(the alpha-mask cache `BitmaskManager`, `PixelPerfectTest`, `CircleTest`,
`OrientedBoundingBox` and `BoundingBoxTest`) together with the SFML value types
and member functions those functions call.

Conventions of the embedding:

* `float` values are exact rationals (`ℚ`): every formula is the one in the
  source, evaluated without rounding.
* `int` values are unbounded integers, `unsigned int` values are naturals and
  every `unsigned int` computation of the source is reduced modulo `2^32`.
* `sf::Uint8` values are naturals (bytes).
* A sprite stores the cosine and sine that `sf::Transformable::getTransform`
  computes from the rotation angle, instead of the angle itself.
-/

namespace Collision

/-! ## SFML value types -/

/-- The type `sf::Vector2f`: a pair `(x, y)`. -/
abbrev Vector2f := ℚ × ℚ

/-- The type `sf::IntRect`. -/
structure IntRect where
  left : Int
  top : Int
  width : Int
  height : Int
  deriving DecidableEq, Repr

/-- The type `sf::FloatRect`. -/
structure FloatRect where
  left : ℚ
  top : ℚ
  width : ℚ
  height : ℚ
  deriving DecidableEq, Repr

/-- The type `sf::Transform`, restricted to its first two rows
`(a00 a01 a02; a10 a11 a12)`. Every transform of this program comes from
`sf::Transformable::getTransform` or from `getInverse` of such a transform, whose
third row is `(0 0 1)`. -/
structure Transform where
  a00 : ℚ
  a01 : ℚ
  a02 : ℚ
  a10 : ℚ
  a11 : ℚ
  a12 : ℚ
  deriving DecidableEq, Repr

/-- The constant `sf::Transform::Identity`. -/
def Transform.Identity : Transform := ⟨1, 0, 0, 0, 1, 0⟩

/-- The member `sf::Transform::transformPoint(x, y)`. -/
def Transform.transformPoint (t : Transform) (x y : ℚ) : Vector2f :=
  (t.a00 * x + t.a01 * y + t.a02, t.a10 * x + t.a11 * y + t.a12)

/-- The member `sf::Transform::getInverse`: the inverse matrix when the determinant
is not zero, `Identity` otherwise. With third row `(0 0 1)` the determinant is
`a00 * a11 - a10 * a01`. -/
def Transform.getInverse (t : Transform) : Transform :=
  let det := t.a00 * t.a11 - t.a10 * t.a01
  if det ≠ 0 then
    ⟨t.a11 / det, -t.a01 / det, (t.a12 * t.a01 - t.a11 * t.a02) / det,
     -t.a10 / det, t.a00 / det, -(t.a12 * t.a00 - t.a10 * t.a02) / det⟩
  else Transform.Identity

/-- The member `sf::Transform::transformRect`: the axis-aligned bounding rectangle of
the four transformed corners of `r`. -/
def Transform.transformRect (t : Transform) (r : FloatRect) : FloatRect :=
  let q0 := t.transformPoint r.left r.top
  let q1 := t.transformPoint r.left (r.top + r.height)
  let q2 := t.transformPoint (r.left + r.width) r.top
  let q3 := t.transformPoint (r.left + r.width) (r.top + r.height)
  let left := min (min q0.1 q1.1) (min q2.1 q3.1)
  let right := max (max q0.1 q1.1) (max q2.1 q3.1)
  let top := min (min q0.2 q1.2) (min q2.2 q3.2)
  let bottom := max (max q0.2 q1.2) (max q2.2 q3.2)
  ⟨left, top, right - left, bottom - top⟩

/-- The member `sf::FloatRect::intersects(rect, intersection)`: the returned flag and
the value written to `intersection`. Rectangles of negative size are normalised
first; the overlap must have positive width and height. -/
def FloatRect.intersects (r1 r2 : FloatRect) : Bool × FloatRect :=
  let r1MinX := min r1.left (r1.left + r1.width)
  let r1MaxX := max r1.left (r1.left + r1.width)
  let r1MinY := min r1.top (r1.top + r1.height)
  let r1MaxY := max r1.top (r1.top + r1.height)
  let r2MinX := min r2.left (r2.left + r2.width)
  let r2MaxX := max r2.left (r2.left + r2.width)
  let r2MinY := min r2.top (r2.top + r2.height)
  let r2MaxY := max r2.top (r2.top + r2.height)
  let interLeft := max r1MinX r2MinX
  let interTop := max r1MinY r2MinY
  let interRight := min r1MaxX r2MaxX
  let interBottom := min r1MaxY r2MaxY
  if interLeft < interRight ∧ interTop < interBottom then
    (true, ⟨interLeft, interTop, interRight - interLeft, interBottom - interTop⟩)
  else
    (false, ⟨0, 0, 0, 0⟩)

/-- The type `sf::Image` as far as the mask needs it: its size and the alpha channel of
`getPixel(x, y)`. -/
structure Image where
  size : Nat × Nat
  alpha : Nat → Nat → Nat

/-- The type `sf::Texture`: `id` is the address of the object (its identity, the key of
the mask cache), `size` is `getSize()` and `alpha x y` is the alpha channel of
the pixel `(x, y)` held by the texture. -/
structure Texture where
  id : Nat
  size : Nat × Nat
  alpha : Nat → Nat → Nat

/-- The member `sf::Texture::copyToImage`. -/
def Texture.copyToImage (tex : Texture) : Image := ⟨tex.size, tex.alpha⟩

/-- The type `sf::Sprite`: the bound texture, the texture rectangle and the
`sf::Transformable` state. `cosine` and `sine` are the values `getTransform`
computes from the rotation angle. -/
structure Sprite where
  texture : Texture
  textureRect : IntRect
  origin : Vector2f
  position : Vector2f
  cosine : ℚ
  sine : ℚ
  scale : Vector2f

/-- The member `sf::Transformable::getTransform`. -/
def Sprite.getTransform (s : Sprite) : Transform :=
  let sxc := s.scale.1 * s.cosine
  let syc := s.scale.2 * s.cosine
  let sxs := s.scale.1 * s.sine
  let sys := s.scale.2 * s.sine
  let tx := -s.origin.1 * sxc - s.origin.2 * sys + s.position.1
  let ty := s.origin.1 * sxs - s.origin.2 * syc + s.position.2
  ⟨sxc, sys, tx, -sxs, syc, ty⟩

/-- The member `sf::Transformable::getInverseTransform`. -/
def Sprite.getInverseTransform (s : Sprite) : Transform :=
  s.getTransform.getInverse

/-- The member `sf::Sprite::getLocalBounds`. -/
def Sprite.getLocalBounds (s : Sprite) : FloatRect :=
  ⟨0, 0, ((|s.textureRect.width| : Int) : ℚ), ((|s.textureRect.height| : Int) : ℚ)⟩

/-- The member `sf::Sprite::getGlobalBounds`. -/
def Sprite.getGlobalBounds (s : Sprite) : FloatRect :=
  s.getTransform.transformRect s.getLocalBounds

/-! ## Machine conversions -/

/-- Conversion `float → int`: truncation toward zero. -/
def toInt (q : ℚ) : Int := if 0 ≤ q then ⌊q⌋ else ⌈q⌉

/-- Conversion `int → unsigned int`: reduction modulo `2^32`. -/
def toUnsigned (z : Int) : Nat := (z % 4294967296).toNat

/-! ## BitmaskManager -/

/-- The read `mask[k]` through the pointer `mask`. The list holds the bytes of the
array allocated for the mask; a read past its end is undefined in C++ and yields
here the arbitrary byte `oob k`. -/
def deref (oob : Nat → Nat) (mask : List Nat) (k : Nat) : Nat :=
  mask.getD k (oob k)

/-- The index that `BitmaskManager::GetPixel` reads from the mask, `none` when it
returns early without reading. -/
def GetPixelIndex (tex : Texture) (x y : Nat) : Option Nat :=
  if x > tex.size.1 ∨ y > tex.size.2 then none
  else some ((x + y * tex.size.1) % 4294967296)

/-- The member `BitmaskManager::GetPixel`. -/
def GetPixel (oob : Nat → Nat) (mask : List Nat) (tex : Texture) (x y : Nat) : Nat :=
  if x > tex.size.1 ∨ y > tex.size.2 then 0
  else deref oob mask ((x + y * tex.size.1) % 4294967296)

/-- The class `BitmaskManager`: the map `Bitmasks` from texture addresses to masks, as
an association list with at most one entry per key. -/
structure BitmaskManager where
  Bitmasks : List (Nat × List Nat)

/-- The call `std::map::insert`: adds the pair unless the key is already present. -/
def mapInsert (m : List (Nat × List Nat)) (key : Nat) (mask : List Nat) :
    List (Nat × List Nat) :=
  match m.lookup key with
  | some _ => m
  | none => (key, mask) :: m

/-- The member `BitmaskManager::CreateMask`: allocates `y * x` bytes, fills them in
row-major order with the alpha channel of `img`, inserts the mask and returns
it together with the manager afterwards. -/
def BitmaskManager.CreateMask (mgr : BitmaskManager) (tex : Texture) (img : Image) :
    List Nat × BitmaskManager :=
  let mask0 : List Nat := List.replicate ((tex.size.2 * tex.size.1) % 4294967296) 0
  let mask := (List.range tex.size.2).foldl
    (fun m y => (List.range tex.size.1).foldl
      (fun m x => m.set ((x + y * tex.size.1) % 4294967296) (img.alpha x y)) m) mask0
  (mask, ⟨mapInsert mgr.Bitmasks tex.id mask⟩)

/-- The member `BitmaskManager::GetMask`. -/
def BitmaskManager.GetMask (mgr : BitmaskManager) (tex : Texture) :
    List Nat × BitmaskManager :=
  match mgr.Bitmasks.lookup tex.id with
  | none => mgr.CreateMask tex tex.copyToImage
  | some mask => (mask, mgr)

/-! ## PixelPerfectTest -/

/-- The loop `for (int i = start; i < hi; i++) if (body i) return true;` followed by
`return false`, with a bound on the number of iterations. -/
def forLoopAux (body : Int → Bool) (hi : ℚ) : Nat → Int → Bool
  | 0, _ => false
  | fuel + 1, i =>
    if (i : ℚ) < hi then
      if body i then true else forLoopAux body hi fuel (i + 1)
    else false

/-- The loop `for (int i = start; i < hi; i++) if (body i) return true;` followed by
`return false`. The loop runs `⌈hi⌉ - start` times at most. -/
def forLoop (start : Int) (hi : ℚ) (body : Int → Bool) : Bool :=
  forLoopAux body hi (⌈hi⌉ - start).toNat start

/-- The body of the inner loop of `PixelPerfectTest`: whether the pixel `(i, j)` makes
the function return true. -/
def pixelHit (oob : Nat → Nat) (Object1 Object2 : Sprite) (mask1 mask2 : List Nat)
    (AlphaLimit : Nat) (i j : Int) : Bool :=
  let O1SubRect := Object1.textureRect
  let O2SubRect := Object2.textureRect
  let o1v := Object1.getInverseTransform.transformPoint i j
  let o2v := Object2.getInverseTransform.transformPoint i j
  if o1v.1 > 0 ∧ o1v.2 > 0 ∧ o2v.1 > 0 ∧ o2v.2 > 0 ∧
      o1v.1 < O1SubRect.width ∧ o1v.2 < O1SubRect.height ∧
      o2v.1 < O2SubRect.width ∧ o2v.2 < O2SubRect.height then
    if GetPixel oob mask1 Object1.texture
          (toUnsigned (toInt o1v.1 + O1SubRect.left))
          (toUnsigned (toInt o1v.2 + O1SubRect.top)) > AlphaLimit ∧
        GetPixel oob mask2 Object2.texture
          (toUnsigned (toInt o2v.1 + O2SubRect.left))
          (toUnsigned (toInt o2v.2 + O2SubRect.top)) > AlphaLimit then
      true
    else false
  else false

/-- The function `Collision::PixelPerfectTest`: the returned flag and the mask cache
afterwards. -/
def PixelPerfectTest (oob : Nat → Nat) (mgr : BitmaskManager) (Object1 Object2 : Sprite)
    (AlphaLimit : Nat) : Bool × BitmaskManager :=
  let r := Object1.getGlobalBounds.intersects Object2.getGlobalBounds
  if r.1 then
    let Intersection := r.2
    let m1 := mgr.GetMask Object1.texture
    let m2 := m1.2.GetMask Object2.texture
    (forLoop (toInt Intersection.left) (Intersection.left + Intersection.width) (fun i =>
      forLoop (toInt Intersection.top) (Intersection.top + Intersection.height) (fun j =>
        pixelHit oob Object1 Object2 m1.1 m2.1 AlphaLimit i j)), m2.2)
  else (false, mgr)

/-- The calls `Bitmasks.GetPixel(mask, texture, x, y)` that the body of the inner loop of
`PixelPerfectTest` makes at the pixel `(i, j)`, in order, each as
`(mask, texture, x, y)`. The second call is made only when the first comparison
holds (`&&` evaluates its right operand only then). -/
def pixelHitCalls (oob : Nat → Nat) (Object1 Object2 : Sprite) (mask1 mask2 : List Nat)
    (AlphaLimit : Nat) (i j : Int) : List (List Nat × Texture × Nat × Nat) :=
  let O1SubRect := Object1.textureRect
  let O2SubRect := Object2.textureRect
  let o1v := Object1.getInverseTransform.transformPoint i j
  let o2v := Object2.getInverseTransform.transformPoint i j
  if o1v.1 > 0 ∧ o1v.2 > 0 ∧ o2v.1 > 0 ∧ o2v.2 > 0 ∧
      o1v.1 < O1SubRect.width ∧ o1v.2 < O1SubRect.height ∧
      o2v.1 < O2SubRect.width ∧ o2v.2 < O2SubRect.height then
    if GetPixel oob mask1 Object1.texture
          (toUnsigned (toInt o1v.1 + O1SubRect.left))
          (toUnsigned (toInt o1v.2 + O1SubRect.top)) > AlphaLimit then
      [(mask1, Object1.texture, toUnsigned (toInt o1v.1 + O1SubRect.left),
          toUnsigned (toInt o1v.2 + O1SubRect.top)),
       (mask2, Object2.texture, toUnsigned (toInt o2v.1 + O2SubRect.left),
          toUnsigned (toInt o2v.2 + O2SubRect.top))]
    else
      [(mask1, Object1.texture, toUnsigned (toInt o1v.1 + O1SubRect.left),
          toUnsigned (toInt o1v.2 + O1SubRect.top))]
  else []

/-! ## CreateTextureAndBitmask -/

/-- The function `Collision::CreateTextureAndBitmask`. `file` is the image that
`img.loadFromFile(Filename)` yields, `none` when it fails; `accepted` tells
whether `LoadInto.loadFromImage(img)` succeeds, after which the texture object
holds the size and pixels of the image at its unchanged address. The result is
the returned flag, the texture object afterwards and the mask cache afterwards. -/
def CreateTextureAndBitmask (mgr : BitmaskManager) (LoadInto : Texture)
    (file : Option Image) (accepted : Bool) : Bool × Texture × BitmaskManager :=
  match file with
  | none => (false, LoadInto, mgr)
  | some img =>
    if accepted then
      let loaded : Texture := ⟨LoadInto.id, img.size, img.alpha⟩
      (true, loaded, (mgr.CreateMask loaded img).2)
    else (false, LoadInto, mgr)

/-- A call of one of the four functions that touch the mask cache, with its arguments. -/
inductive CacheCall where
  | getMask (tex : Texture)
  | createMask (tex : Texture) (img : Image)
  | createTextureAndBitmask (LoadInto : Texture) (file : Option Image) (accepted : Bool)
  | pixelPerfectTest (oob : Nat → Nat) (Object1 Object2 : Sprite) (AlphaLimit : Nat)

/-- The mask cache after a call. -/
def CacheCall.run (mgr : BitmaskManager) : CacheCall → BitmaskManager
  | .getMask tex => (mgr.GetMask tex).2
  | .createMask tex img => (mgr.CreateMask tex img).2
  | .createTextureAndBitmask LoadInto file accepted =>
    (CreateTextureAndBitmask mgr LoadInto file accepted).2.2
  | .pixelPerfectTest oob Object1 Object2 AlphaLimit =>
    (PixelPerfectTest oob mgr Object1 Object2 AlphaLimit).2

/-! ## CircleTest -/

/-- The function `Collision::GetSpriteCenter`. -/
def GetSpriteCenter (Object : Sprite) : Vector2f :=
  let AABB := Object.getGlobalBounds
  (AABB.left + AABB.width / 2, AABB.top + AABB.height / 2)

/-- The function `Collision::GetSpriteSize`. -/
def GetSpriteSize (Object : Sprite) : Vector2f :=
  let OriginalSize := Object.textureRect
  let Scale := Object.scale
  (OriginalSize.width * Scale.1, OriginalSize.height * Scale.2)

/-- The function `Collision::CircleTest`. -/
def CircleTest (Object1 Object2 : Sprite) : Bool :=
  let Obj1Size := GetSpriteSize Object1
  let Obj2Size := GetSpriteSize Object2
  let Radius1 := (Obj1Size.1 + Obj1Size.2) / 4
  let Radius2 := (Obj2Size.1 + Obj2Size.2) / 4
  let Distance := GetSpriteCenter Object1 - GetSpriteCenter Object2
  decide (Distance.1 * Distance.1 + Distance.2 * Distance.2
    ≤ (Radius1 + Radius2) * (Radius1 + Radius2))

/-! ## OrientedBoundingBox and BoundingBoxTest -/

/-- The class `OrientedBoundingBox`: the array `Points[4]`. -/
structure OrientedBoundingBox where
  P0 : Vector2f
  P1 : Vector2f
  P2 : Vector2f
  P3 : Vector2f

/-- The constructor `OrientedBoundingBox(Object)`. -/
def OrientedBoundingBox.ofSprite (Object : Sprite) : OrientedBoundingBox :=
  let trans := Object.getTransform
  let loc := Object.textureRect
  { P0 := trans.transformPoint 0 0
    P1 := trans.transformPoint loc.width 0
    P2 := trans.transformPoint loc.width loc.height
    P3 := trans.transformPoint 0 loc.height }

/-- The expression `Points[j].x*Axis.x+Points[j].y*Axis.y`. -/
def projection (P Axis : Vector2f) : ℚ := P.1 * Axis.1 + P.2 * Axis.2

/-- The member `OrientedBoundingBox::ProjectOntoAxis`: the pair `(Min, Max)` it
writes. -/
def OrientedBoundingBox.ProjectOntoAxis (obb : OrientedBoundingBox) (Axis : Vector2f) :
    ℚ × ℚ :=
  let start := projection obb.P0 Axis
  [obb.P1, obb.P2, obb.P3].foldl
    (fun (acc : ℚ × ℚ) P =>
      let Projection := projection P Axis
      let Min := if Projection < acc.1 then Projection else acc.1
      let Max := if Projection > acc.2 then Projection else acc.2
      (Min, Max))
    (start, start)

/-- The function `Collision::BoundingBoxTest`. -/
def BoundingBoxTest (Object1 Object2 : Sprite) : Bool :=
  let OBB1 := OrientedBoundingBox.ofSprite Object1
  let OBB2 := OrientedBoundingBox.ofSprite Object2
  let Axes : List Vector2f :=
    [ (OBB1.P1.1 - OBB1.P0.1, OBB1.P1.2 - OBB1.P0.2),
      (OBB1.P1.1 - OBB1.P2.1, OBB1.P1.2 - OBB1.P2.2),
      (OBB2.P0.1 - OBB2.P3.1, OBB2.P0.2 - OBB2.P3.2),
      (OBB2.P0.1 - OBB2.P1.1, OBB2.P0.2 - OBB2.P1.2) ]
  Axes.all (fun Axis =>
    let m1 := OBB1.ProjectOntoAxis Axis
    let m2 := OBB2.ProjectOntoAxis Axis
    decide (m2.1 ≤ m1.2 ∧ m2.2 ≥ m1.1))

/-! ## Regions and conditions used to state the properties -/

/-- The closed region spanned by the four corners of an oriented bounding box. -/
def OrientedBoundingBox.region (b : OrientedBoundingBox) : Set Vector2f :=
  convexHull ℚ {b.P0, b.P1, b.P2, b.P3}

/-- The four corners form a rectangle with two non-zero perpendicular edges. -/
def OrientedBoundingBox.IsRectangle (b : OrientedBoundingBox) : Prop :=
  b.P2 = b.P1 + b.P3 - b.P0 ∧ projection (b.P1 - b.P0) (b.P3 - b.P0) = 0 ∧
    b.P1 ≠ b.P0 ∧ b.P3 ≠ b.P0

/-- The set of points whose projection on `n` lies in `[lo, hi]`. -/
def slab (n : Vector2f) (lo hi : ℚ) : Set Vector2f :=
  {q | lo ≤ projection q n ∧ projection q n ≤ hi}

/-- The strip between the two edges of a box that are perpendicular to `P1 - P0`. -/
def OrientedBoundingBox.slab1 (b : OrientedBoundingBox) : Set Vector2f :=
  slab (b.P1 - b.P0) (projection b.P0 (b.P1 - b.P0)) (projection b.P1 (b.P1 - b.P0))

/-- The strip between the two edges of a box that are perpendicular to `P3 - P0`. -/
def OrientedBoundingBox.slab2 (b : OrientedBoundingBox) : Set Vector2f :=
  slab (b.P3 - b.P0) (projection b.P0 (b.P3 - b.P0)) (projection b.P3 (b.P3 - b.P0))

/-- The four strips of two boxes, in the order first box, second box. -/
def strips (b1 b2 : OrientedBoundingBox) : Fin 4 → Set Vector2f
  | 0 => b1.slab1
  | 1 => b1.slab2
  | 2 => b2.slab1
  | 3 => b2.slab2

/-- The transform of the sprite is invertible: both scale factors are non-zero and
the pair `(cosine, sine)` is not `(0, 0)` (as for every rotation). -/
def Sprite.HasInvertibleTransform (s : Sprite) : Prop :=
  s.scale.1 ≠ 0 ∧ s.scale.2 ≠ 0 ∧ (s.cosine ≠ 0 ∨ s.sine ≠ 0)

/-- The texture rectangle has positive width and height and the transform is
invertible. -/
def Sprite.Nondegenerate (s : Sprite) : Prop :=
  0 < s.textureRect.width ∧ 0 < s.textureRect.height ∧ s.HasInvertibleTransform

/-- The projections of the two boxes on the axis overlap, as tested in the loop of
`BoundingBoxTest`. -/
def overlapOn (b1 b2 : OrientedBoundingBox) (n : Vector2f) : Prop :=
  (b2.ProjectOntoAxis n).1 ≤ (b1.ProjectOntoAxis n).2 ∧
    (b2.ProjectOntoAxis n).2 ≥ (b1.ProjectOntoAxis n).1

/-- The closed rectangle `[left, left + width] × [top, top + height]`. -/
def FloatRect.closedRegion (r : FloatRect) : Set Vector2f :=
  {p | r.left ≤ p.1 ∧ p.1 ≤ r.left + r.width ∧ r.top ≤ p.2 ∧ p.2 ≤ r.top + r.height}

/-- Both scale factors are positive and `(cosine, sine)` is a point of the unit circle. -/
def Sprite.HasPositiveScale (s : Sprite) : Prop :=
  0 < s.scale.1 ∧ 0 < s.scale.2 ∧ s.cosine * s.cosine + s.sine * s.sine = 1

/-- The texture rectangle of the sprite lies inside its texture. -/
def Sprite.SubRectInsideTexture (s : Sprite) : Prop :=
  0 ≤ s.textureRect.left ∧ 0 ≤ s.textureRect.top ∧
    0 ≤ s.textureRect.width ∧ 0 ≤ s.textureRect.height ∧
    s.textureRect.left + s.textureRect.width ≤ (s.texture.size.1 : Int) ∧
    s.textureRect.top + s.textureRect.height ≤ (s.texture.size.2 : Int)

/-! ## Concrete sprites -/

/-- A texture of the given address and size whose pixels all have alpha 255. -/
def solidTexture (id w h : Nat) : Texture := ⟨id, (w, h), fun _ _ => 255⟩

/-- An unrotated, unscaled sprite with origin `(0, 0)` that shows the whole texture
at position `(x, y)`. -/
def plainSprite (tex : Texture) (x y : ℚ) : Sprite :=
  ⟨tex, ⟨0, 0, tex.size.1, tex.size.2⟩, (0, 0), (x, y), 1, 0, (1, 1)⟩

/-- A sprite with origin `(0, 0)` that shows the whole texture at position `(x, y)`,
turned by the angle of cosine `3/5` and sine `4/5` and scaled by `(sx, sy)`. -/
def turnedSprite (tex : Texture) (x y sx sy : ℚ) : Sprite :=
  ⟨tex, ⟨0, 0, tex.size.1, tex.size.2⟩, (0, 0), (x, y), 3 / 5, 4 / 5, (sx, sy)⟩

/-- An image of the given size whose pixels all have alpha `a`. -/
def solidImage (w h a : Nat) : Image := ⟨(w, h), fun _ _ => a⟩

/-! ## Lemmas -/

theorem forLoopAux_iff (body : Int → Bool) (hi : ℚ) (fuel : Nat) (i : Int) :
    forLoopAux body hi fuel i = true ↔
      ∃ k : Int, i ≤ k ∧ k < i + fuel ∧ (k : ℚ) < hi ∧ body k = true := by
  induction fuel generalizing i with
  | zero =>
    simp only [forLoopAux, Bool.false_eq_true, false_iff]
    rintro ⟨k, h1, h2, -, -⟩
    simp at h2
    omega
  | succ n ih =>
    simp only [forLoopAux]
    by_cases hlt : (i : ℚ) < hi
    · by_cases hb : body i = true
      · simp only [hlt, hb, if_true]
        simp only [true_iff]
        exact ⟨i, le_refl _, by push_cast; omega, hlt, hb⟩
      · have hb2 : body i = false := by simpa using hb
        simp only [hlt, hb2, if_true, Bool.false_eq_true, if_false]
        rw [ih]
        constructor
        · rintro ⟨k, h1, h2, h3, h4⟩
          exact ⟨k, by omega, by push_cast; omega, h3, h4⟩
        · rintro ⟨k, h1, h2, h3, h4⟩
          have hne : k ≠ i := by
            rintro rfl
            exact hb h4
          refine ⟨k, by omega, ?_, h3, h4⟩
          push_cast at h2
          omega
    · simp only [hlt, if_false, Bool.false_eq_true, false_iff]
      rintro ⟨k, h1, -, h3, -⟩
      apply hlt
      have : (i : ℚ) ≤ k := by exact_mod_cast h1
      linarith

theorem forLoop_iff (start : Int) (hi : ℚ) (body : Int → Bool) :
    forLoop start hi body = true ↔
      ∃ k : Int, start ≤ k ∧ (k : ℚ) < hi ∧ body k = true := by
  unfold forLoop
  rw [forLoopAux_iff]
  constructor
  · rintro ⟨k, h1, -, h3, h4⟩
    exact ⟨k, h1, h3, h4⟩
  · rintro ⟨k, h1, h3, h4⟩
    refine ⟨k, h1, ?_, h3, h4⟩
    have h5 : k < ⌈hi⌉ := Int.lt_ceil.mpr h3
    have h6 : ((⌈hi⌉ - start).toNat : Int) = ⌈hi⌉ - start := Int.toNat_of_nonneg (by omega)
    omega

theorem transformRect_width_nonneg (t : Transform) (r : FloatRect) :
    0 ≤ (t.transformRect r).width := by
  simp only [Transform.transformRect, sub_nonneg]
  exact le_trans (min_le_left _ _) (le_trans (min_le_left _ _)
    (le_trans (le_max_left _ _) (le_max_left _ _)))

theorem transformRect_height_nonneg (t : Transform) (r : FloatRect) :
    0 ≤ (t.transformRect r).height := by
  simp only [Transform.transformRect, sub_nonneg]
  exact le_trans (min_le_left _ _) (le_trans (min_le_left _ _)
    (le_trans (le_max_left _ _) (le_max_left _ _)))

theorem getGlobalBounds_width_nonneg (s : Sprite) : 0 ≤ s.getGlobalBounds.width :=
  transformRect_width_nonneg _ _

theorem getGlobalBounds_height_nonneg (s : Sprite) : 0 ≤ s.getGlobalBounds.height :=
  transformRect_height_nonneg _ _

/-- For rectangles of non-negative size `intersects` answers whether the overlap
`[max lefts, min rights] × [max tops, min bottoms]` has positive width and height. -/
theorem intersects_iff (a b : FloatRect) (haw : 0 ≤ a.width) (hah : 0 ≤ a.height)
    (hbw : 0 ≤ b.width) (hbh : 0 ≤ b.height) :
    (a.intersects b).1 = true ↔
      (max a.left b.left < min (a.left + a.width) (b.left + b.width) ∧
        max a.top b.top < min (a.top + a.height) (b.top + b.height)) := by
  unfold FloatRect.intersects
  simp only [min_eq_left (le_add_of_nonneg_right haw), max_eq_right (le_add_of_nonneg_right haw),
    min_eq_left (le_add_of_nonneg_right hah), max_eq_right (le_add_of_nonneg_right hah),
    min_eq_left (le_add_of_nonneg_right hbw), max_eq_right (le_add_of_nonneg_right hbw),
    min_eq_left (le_add_of_nonneg_right hbh), max_eq_right (le_add_of_nonneg_right hbh)]
  split_ifs with h
  · exact ⟨fun _ => h, fun _ => rfl⟩
  · exact ⟨fun hf => by simp at hf, fun hc => absurd hc h⟩

theorem pixelHit_iff (oob : Nat → Nat) (Object1 Object2 : Sprite) (mask1 mask2 : List Nat)
    (AlphaLimit : Nat) (i j : Int) :
    pixelHit oob Object1 Object2 mask1 mask2 AlphaLimit i j = true ↔
      (0 < (Object1.getInverseTransform.transformPoint i j).1 ∧
        (Object1.getInverseTransform.transformPoint i j).1 < Object1.textureRect.width ∧
        0 < (Object1.getInverseTransform.transformPoint i j).2 ∧
        (Object1.getInverseTransform.transformPoint i j).2 < Object1.textureRect.height) ∧
      (0 < (Object2.getInverseTransform.transformPoint i j).1 ∧
        (Object2.getInverseTransform.transformPoint i j).1 < Object2.textureRect.width ∧
        0 < (Object2.getInverseTransform.transformPoint i j).2 ∧
        (Object2.getInverseTransform.transformPoint i j).2 < Object2.textureRect.height) ∧
      AlphaLimit < GetPixel oob mask1 Object1.texture
        (toUnsigned (toInt (Object1.getInverseTransform.transformPoint i j).1
          + Object1.textureRect.left))
        (toUnsigned (toInt (Object1.getInverseTransform.transformPoint i j).2
          + Object1.textureRect.top)) ∧
      AlphaLimit < GetPixel oob mask2 Object2.texture
        (toUnsigned (toInt (Object2.getInverseTransform.transformPoint i j).1
          + Object2.textureRect.left))
        (toUnsigned (toInt (Object2.getInverseTransform.transformPoint i j).2
          + Object2.textureRect.top)) := by
  unfold pixelHit
  simp only [gt_iff_lt]
  split_ifs with h1 h2
  · simp only [true_iff]
    tauto
  · simp only [Bool.false_eq_true, false_iff]
    tauto
  · simp only [Bool.false_eq_true, false_iff]
    tauto

/-- The two nested loops of `PixelPerfectTest` as an existence statement over the
scanned pixels. -/
theorem PixelPerfectTest_eq_true_iff (oob : Nat → Nat) (mgr : BitmaskManager)
    (Object1 Object2 : Sprite) (AlphaLimit : Nat) :
    (PixelPerfectTest oob mgr Object1 Object2 AlphaLimit).1 = true ↔
      (Object1.getGlobalBounds.intersects Object2.getGlobalBounds).1 = true ∧
      ∃ i j : Int,
        toInt (Object1.getGlobalBounds.intersects Object2.getGlobalBounds).2.left ≤ i ∧
        (i : ℚ) < (Object1.getGlobalBounds.intersects Object2.getGlobalBounds).2.left
          + (Object1.getGlobalBounds.intersects Object2.getGlobalBounds).2.width ∧
        toInt (Object1.getGlobalBounds.intersects Object2.getGlobalBounds).2.top ≤ j ∧
        (j : ℚ) < (Object1.getGlobalBounds.intersects Object2.getGlobalBounds).2.top
          + (Object1.getGlobalBounds.intersects Object2.getGlobalBounds).2.height ∧
        (0 < (Object1.getInverseTransform.transformPoint i j).1 ∧
          (Object1.getInverseTransform.transformPoint i j).1 < Object1.textureRect.width ∧
          0 < (Object1.getInverseTransform.transformPoint i j).2 ∧
          (Object1.getInverseTransform.transformPoint i j).2 < Object1.textureRect.height) ∧
        (0 < (Object2.getInverseTransform.transformPoint i j).1 ∧
          (Object2.getInverseTransform.transformPoint i j).1 < Object2.textureRect.width ∧
          0 < (Object2.getInverseTransform.transformPoint i j).2 ∧
          (Object2.getInverseTransform.transformPoint i j).2 < Object2.textureRect.height) ∧
        AlphaLimit < GetPixel oob (mgr.GetMask Object1.texture).1 Object1.texture
          (toUnsigned (toInt (Object1.getInverseTransform.transformPoint i j).1
            + Object1.textureRect.left))
          (toUnsigned (toInt (Object1.getInverseTransform.transformPoint i j).2
            + Object1.textureRect.top)) ∧
        AlphaLimit < GetPixel oob
          ((mgr.GetMask Object1.texture).2.GetMask Object2.texture).1 Object2.texture
          (toUnsigned (toInt (Object2.getInverseTransform.transformPoint i j).1
            + Object2.textureRect.left))
          (toUnsigned (toInt (Object2.getInverseTransform.transformPoint i j).2
            + Object2.textureRect.top)) := by
  unfold PixelPerfectTest
  by_cases hr : (Object1.getGlobalBounds.intersects Object2.getGlobalBounds).1 = true
  · simp only [hr, if_true, true_and]
    rw [forLoop_iff]
    constructor
    · rintro ⟨i, hi1, hi2, hbody⟩
      rw [forLoop_iff] at hbody
      obtain ⟨j, hj1, hj2, hhit⟩ := hbody
      rw [pixelHit_iff] at hhit
      exact ⟨i, j, hi1, hi2, hj1, hj2, hhit⟩
    · rintro ⟨i, j, hi1, hi2, hj1, hj2, hhit⟩
      refine ⟨i, hi1, hi2, ?_⟩
      rw [forLoop_iff]
      refine ⟨j, hj1, hj2, ?_⟩
      rw [pixelHit_iff]
      exact hhit
  · simp [hr]

theorem ProjectOntoAxis_fst (b : OrientedBoundingBox) (n : Vector2f) :
    (b.ProjectOntoAxis n).1 =
      min (min (min (projection b.P0 n) (projection b.P1 n)) (projection b.P2 n))
        (projection b.P3 n) := by
  simp only [OrientedBoundingBox.ProjectOntoAxis, List.foldl, min_def]
  split_ifs <;> linarith

theorem ProjectOntoAxis_snd (b : OrientedBoundingBox) (n : Vector2f) :
    (b.ProjectOntoAxis n).2 =
      max (max (max (projection b.P0 n) (projection b.P1 n)) (projection b.P2 n))
        (projection b.P3 n) := by
  simp only [OrientedBoundingBox.ProjectOntoAxis, List.foldl, max_def]
  split_ifs <;> linarith

theorem projection_combo (x y n : Vector2f) (a b : ℚ) :
    projection (a • x + b • y) n = a * projection x n + b * projection y n := by
  simp only [projection, Prod.fst_add, Prod.snd_add, Prod.smul_fst, Prod.smul_snd, smul_eq_mul]
  ring

theorem convex_slab (n : Vector2f) (lo hi : ℚ) : Convex ℚ (slab n lo hi) := by
  intro x hx y hy a b ha hb hab
  simp only [slab, Set.mem_setOf_eq] at hx hy ⊢
  rw [projection_combo]
  have hb' : b = 1 - a := by linarith
  subst hb'
  constructor
  · nlinarith [mul_nonneg ha (sub_nonneg.2 hx.1), mul_nonneg hb (sub_nonneg.2 hy.1)]
  · nlinarith [mul_nonneg ha (sub_nonneg.2 hx.2), mul_nonneg hb (sub_nonneg.2 hy.2)]

/-- Every point of the region projects between the `Min` and `Max` that
`ProjectOntoAxis` computes. -/
theorem region_subset_slab (b : OrientedBoundingBox) (n : Vector2f) :
    b.region ⊆ slab n (b.ProjectOntoAxis n).1 (b.ProjectOntoAxis n).2 := by
  apply convexHull_min _ (convex_slab _ _ _)
  rw [ProjectOntoAxis_fst, ProjectOntoAxis_snd]
  intro q hq
  simp only [Set.mem_insert_iff, Set.mem_singleton_iff] at hq
  simp only [slab, Set.mem_setOf_eq, min_le_iff, le_max_iff]
  rcases hq with rfl | rfl | rfl | rfl <;> simp

/-- A point `P0 + x (P1 - P0) + y (P3 - P0)` with `x, y ∈ [0, 1]` of a parallelogram lies
in its region. -/
theorem mem_region_of_param (b : OrientedBoundingBox) (hP2 : b.P2 = b.P1 + b.P3 - b.P0)
    (x y : ℚ) (hx0 : 0 ≤ x) (hx1 : x ≤ 1) (hy0 : 0 ≤ y) (hy1 : y ≤ 1) :
    b.P0 + x • (b.P1 - b.P0) + y • (b.P3 - b.P0) ∈ b.region := by
  have hc : Convex ℚ b.region := convex_convexHull ℚ _
  have h0 : b.P0 ∈ b.region := subset_convexHull ℚ _ (by simp)
  have h1 : b.P1 ∈ b.region := subset_convexHull ℚ _ (by simp)
  have h2 : b.P2 ∈ b.region := subset_convexHull ℚ _ (by simp)
  have h3 : b.P3 ∈ b.region := subset_convexHull ℚ _ (by simp)
  have e1 : (1 - x) • b.P0 + x • b.P1 ∈ b.region :=
    hc h0 h1 (by linarith) hx0 (by ring)
  have e2 : (1 - x) • b.P3 + x • b.P2 ∈ b.region :=
    hc h3 h2 (by linarith) hx0 (by ring)
  have e3 := hc e1 e2 (sub_nonneg.2 hy1) hy0 (by ring : (1 - y) + y = 1)
  convert e3 using 1
  rw [hP2]
  ext
  · simp only [Prod.fst_add, Prod.smul_fst, Prod.fst_sub, smul_eq_mul]
    ring
  · simp only [Prod.snd_add, Prod.smul_snd, Prod.snd_sub, smul_eq_mul]
    ring

theorem projection_param (P E1 E2 n : Vector2f) (x y : ℚ) :
    projection (P + x • E1 + y • E2) n
      = projection P n + x * projection E1 n + y * projection E2 n := by
  simp only [projection, Prod.fst_add, Prod.snd_add, Prod.smul_fst, Prod.smul_snd, smul_eq_mul]
  ring

theorem projection_sub (P Q n : Vector2f) :
    projection (P - Q) n = projection P n - projection Q n := by
  simp only [projection, Prod.fst_sub, Prod.snd_sub]
  ring

theorem ProjectOntoAxis_le (b : OrientedBoundingBox) (n : Vector2f) :
    (b.ProjectOntoAxis n).1 ≤ (b.ProjectOntoAxis n).2 := by
  rw [ProjectOntoAxis_fst, ProjectOntoAxis_snd]
  exact le_trans (min_le_left _ _) (le_trans (min_le_left _ _) (le_trans (min_le_left _ _)
    (le_trans (le_max_left _ _) (le_trans (le_max_left _ _) (le_max_left _ _)))))

/-- Intermediate values: every value between the `Min` and `Max` of the projections of
a parallelogram is the projection of one of its points. -/
theorem exists_param_projection_eq (b : OrientedBoundingBox)
    (hP2 : b.P2 = b.P1 + b.P3 - b.P0) (n : Vector2f) (t : ℚ)
    (hlo : (b.ProjectOntoAxis n).1 ≤ t) (hhi : t ≤ (b.ProjectOntoAxis n).2) :
    ∃ x y : ℚ, 0 ≤ x ∧ x ≤ 1 ∧ 0 ≤ y ∧ y ≤ 1 ∧
      projection (b.P0 + x • (b.P1 - b.P0) + y • (b.P3 - b.P0)) n = t := by
  rw [ProjectOntoAxis_fst] at hlo
  rw [ProjectOntoAxis_snd] at hhi
  simp only [projection_param, projection_sub]
  have h2 : projection b.P2 n = projection b.P1 n + projection b.P3 n - projection b.P0 n := by
    rw [hP2]
    simp only [projection, Prod.fst_add, Prod.snd_add, Prod.fst_sub, Prod.snd_sub]
    ring
  rw [h2] at hlo hhi
  generalize projection b.P0 n = c at *
  generalize projection b.P1 n = c1 at *
  generalize projection b.P3 n = c3 at *
  simp only [min_le_iff, le_max_iff] at hlo hhi
  rcases le_or_lt c c1 with ha | ha <;> rcases le_or_lt c c3 with hb | hb
  · -- both edges increase the projection
    have hl : c ≤ t := by rcases hlo with ((h | h) | h) | h <;> linarith
    have hh : t ≤ c1 + c3 - c := by rcases hhi with ((h | h) | h) | h <;> linarith
    rcases eq_or_lt_of_le (show c ≤ c1 + c3 - c by linarith) with he | hl2
    · exact ⟨0, 0, le_refl _, zero_le_one, le_refl _, zero_le_one, by linarith⟩
    · have hd : 0 < c1 + c3 - c - c := by linarith
      refine ⟨(t - c) / (c1 + c3 - c - c), (t - c) / (c1 + c3 - c - c),
        div_nonneg (by linarith) hd.le, (div_le_one hd).2 (by linarith),
        div_nonneg (by linarith) hd.le, (div_le_one hd).2 (by linarith), ?_⟩
      field_simp
      ring
  · have hl : c3 ≤ t := by rcases hlo with ((h | h) | h) | h <;> linarith
    have hh : t ≤ c1 := by rcases hhi with ((h | h) | h) | h <;> linarith
    have hd : 0 < c1 - c3 := by linarith
    refine ⟨(t - c3) / (c1 - c3), 1 - (t - c3) / (c1 - c3),
      div_nonneg (by linarith) hd.le, (div_le_one hd).2 (by linarith),
      sub_nonneg.2 ((div_le_one hd).2 (by linarith)),
      by linarith [div_nonneg (show (0:ℚ) ≤ t - c3 by linarith) hd.le], ?_⟩
    field_simp
    ring
  · have hl : c1 ≤ t := by rcases hlo with ((h | h) | h) | h <;> linarith
    have hh : t ≤ c3 := by rcases hhi with ((h | h) | h) | h <;> linarith
    have hd : 0 < c3 - c1 := by linarith
    refine ⟨1 - (t - c1) / (c3 - c1), (t - c1) / (c3 - c1),
      sub_nonneg.2 ((div_le_one hd).2 (by linarith)),
      by linarith [div_nonneg (show (0:ℚ) ≤ t - c1 by linarith) hd.le],
      div_nonneg (by linarith) hd.le, (div_le_one hd).2 (by linarith), ?_⟩
    field_simp
    ring
  · have hl : c1 + c3 - c ≤ t := by rcases hlo with ((h | h) | h) | h <;> linarith
    have hh : t ≤ c := by rcases hhi with ((h | h) | h) | h <;> linarith
    have hd : 0 < c + c - c1 - c3 := by linarith
    refine ⟨(c - t) / (c + c - c1 - c3), (c - t) / (c + c - c1 - c3),
      div_nonneg (by linarith) hd.le, (div_le_one hd).2 (by linarith),
      div_nonneg (by linarith) hd.le, (div_le_one hd).2 (by linarith), ?_⟩
    field_simp
    ring

/-- When the projection ranges of two parallelograms on an axis overlap, some point of
the first projects into the range of the second. -/
theorem exists_param_in_range (b b' : OrientedBoundingBox)
    (hP2 : b.P2 = b.P1 + b.P3 - b.P0) (n : Vector2f)
    (h1 : (b'.ProjectOntoAxis n).1 ≤ (b.ProjectOntoAxis n).2)
    (h2 : (b.ProjectOntoAxis n).1 ≤ (b'.ProjectOntoAxis n).2) :
    ∃ x y : ℚ, 0 ≤ x ∧ x ≤ 1 ∧ 0 ≤ y ∧ y ≤ 1 ∧
      (b'.ProjectOntoAxis n).1 ≤
        projection (b.P0 + x • (b.P1 - b.P0) + y • (b.P3 - b.P0)) n ∧
      projection (b.P0 + x • (b.P1 - b.P0) + y • (b.P3 - b.P0)) n
        ≤ (b'.ProjectOntoAxis n).2 := by
  obtain ⟨x, y, hx0, hx1, hy0, hy1, he⟩ := exists_param_projection_eq b hP2 n
    (max (b.ProjectOntoAxis n).1 (b'.ProjectOntoAxis n).1) (le_max_left _ _)
    (max_le (ProjectOntoAxis_le b n) h1)
  refine ⟨x, y, hx0, hx1, hy0, hy1, ?_, ?_⟩
  · rw [he]
    exact le_max_right _ _
  · rw [he]
    exact max_le h2 (ProjectOntoAxis_le b' n)

theorem param_mem_slab1 (b : OrientedBoundingBox) (h : b.IsRectangle) (x y : ℚ)
    (hx0 : 0 ≤ x) (hx1 : x ≤ 1) :
    b.P0 + x • (b.P1 - b.P0) + y • (b.P3 - b.P0) ∈ b.slab1 := by
  obtain ⟨-, horth, -, -⟩ := h
  simp only [OrientedBoundingBox.slab1, slab, Set.mem_setOf_eq, projection_param]
  have h3 : projection (b.P3 - b.P0) (b.P1 - b.P0) = 0 := by
    rw [← horth]; simp only [projection]; ring
  have h1 : projection b.P1 (b.P1 - b.P0)
      = projection b.P0 (b.P1 - b.P0) + projection (b.P1 - b.P0) (b.P1 - b.P0) := by
    rw [projection_sub (b.P1) (b.P0)]; ring
  have hsq : 0 ≤ projection (b.P1 - b.P0) (b.P1 - b.P0) := by
    exact add_nonneg (mul_self_nonneg _) (mul_self_nonneg _)
  rw [h3, h1]
  constructor
  · nlinarith [mul_nonneg hx0 hsq]
  · nlinarith [mul_nonneg (sub_nonneg.2 hx1) hsq]

theorem param_mem_slab2 (b : OrientedBoundingBox) (h : b.IsRectangle) (x y : ℚ)
    (hy0 : 0 ≤ y) (hy1 : y ≤ 1) :
    b.P0 + x • (b.P1 - b.P0) + y • (b.P3 - b.P0) ∈ b.slab2 := by
  obtain ⟨-, horth, -, -⟩ := h
  simp only [OrientedBoundingBox.slab2, slab, Set.mem_setOf_eq, projection_param]
  have h1 : projection b.P3 (b.P3 - b.P0)
      = projection b.P0 (b.P3 - b.P0) + projection (b.P3 - b.P0) (b.P3 - b.P0) := by
    rw [projection_sub (b.P3) (b.P0)]; ring
  have hsq : 0 ≤ projection (b.P3 - b.P0) (b.P3 - b.P0) := by
    exact add_nonneg (mul_self_nonneg _) (mul_self_nonneg _)
  rw [horth, h1]
  constructor
  · nlinarith [mul_nonneg hy0 hsq]
  · nlinarith [mul_nonneg (sub_nonneg.2 hy1) hsq]

theorem projection_self_pos (v : Vector2f) (hv : v ≠ 0) : 0 < projection v v := by
  simp only [projection]
  have : v.1 ≠ 0 ∨ v.2 ≠ 0 := by
    by_contra hc
    push_neg at hc
    exact hv (Prod.ext hc.1 hc.2)
  rcases this with h | h
  · have := mul_self_pos.2 h
    nlinarith [mul_self_nonneg v.2]
  · have := mul_self_pos.2 h
    nlinarith [mul_self_nonneg v.1]

/-- A rectangle is the intersection of its two strips. -/
theorem mem_region_of_mem_slabs (b : OrientedBoundingBox) (h : b.IsRectangle) (q : Vector2f)
    (h1 : q ∈ b.slab1) (h2 : q ∈ b.slab2) : q ∈ b.region := by
  obtain ⟨hP2, horth, hne1, hne3⟩ := h
  have hu : 0 < projection (b.P1 - b.P0) (b.P1 - b.P0) :=
    projection_self_pos _ (sub_ne_zero.2 hne1)
  have hv : 0 < projection (b.P3 - b.P0) (b.P3 - b.P0) :=
    projection_self_pos _ (sub_ne_zero.2 hne3)
  simp only [OrientedBoundingBox.slab1, OrientedBoundingBox.slab2, slab,
    Set.mem_setOf_eq] at h1 h2
  have e1 : projection b.P1 (b.P1 - b.P0)
      = projection b.P0 (b.P1 - b.P0) + projection (b.P1 - b.P0) (b.P1 - b.P0) := by
    rw [projection_sub (b.P1) (b.P0)]; ring
  have e3 : projection b.P3 (b.P3 - b.P0)
      = projection b.P0 (b.P3 - b.P0) + projection (b.P3 - b.P0) (b.P3 - b.P0) := by
    rw [projection_sub (b.P3) (b.P0)]; ring
  rw [e1] at h1
  rw [e3] at h2
  have hq : q = b.P0
      + (projection (q - b.P0) (b.P1 - b.P0) / projection (b.P1 - b.P0) (b.P1 - b.P0))
          • (b.P1 - b.P0)
      + (projection (q - b.P0) (b.P3 - b.P0) / projection (b.P3 - b.P0) (b.P3 - b.P0))
          • (b.P3 - b.P0) := by
    have hu' := hu.ne'
    have hv' := hv.ne'
    simp only [projection, Prod.fst_sub, Prod.snd_sub] at hu' hv' horth
    ext
    · simp only [projection, Prod.fst_add, Prod.smul_fst, Prod.fst_sub, Prod.snd_sub,
        smul_eq_mul]
      field_simp
      linear_combination
        ((q.1 - b.P0.1) * ((b.P1.2 - b.P0.2) * (b.P3.2 - b.P0.2)
            - (b.P1.1 - b.P0.1) * (b.P3.1 - b.P0.1))
          - (q.2 - b.P0.2) * ((b.P1.2 - b.P0.2) * (b.P3.1 - b.P0.1)
            + (b.P1.1 - b.P0.1) * (b.P3.2 - b.P0.2))) * horth
    · simp only [projection, Prod.snd_add, Prod.smul_snd, Prod.fst_sub, Prod.snd_sub,
        smul_eq_mul]
      field_simp
      linear_combination
        ((q.2 - b.P0.2) * ((b.P1.1 - b.P0.1) * (b.P3.1 - b.P0.1)
            - (b.P1.2 - b.P0.2) * (b.P3.2 - b.P0.2))
          - (q.1 - b.P0.1) * ((b.P1.2 - b.P0.2) * (b.P3.1 - b.P0.1)
            + (b.P1.1 - b.P0.1) * (b.P3.2 - b.P0.2))) * horth
  rw [hq]
  have p1 := projection_sub q b.P0 (b.P1 - b.P0)
  have p3 := projection_sub q b.P0 (b.P3 - b.P0)
  apply mem_region_of_param b hP2
  · exact div_nonneg (by linarith) hu.le
  · exact (div_le_one hu).2 (by linarith)
  · exact div_nonneg (by linarith) hv.le
  · exact (div_le_one hv).2 (by linarith)

theorem projection_smul_right (P E : Vector2f) (k : ℚ) :
    projection P (k • E) = k * projection P E := by
  simp only [projection, Prod.smul_fst, Prod.smul_snd, smul_eq_mul]
  ring

theorem projection_comm (P Q : Vector2f) : projection P Q = projection Q P := by
  simp only [projection]
  ring

/-- On an axis parallel to the edge `P1 - P0` of a rectangle, a point whose projection
lies between the `Min` and `Max` of the rectangle lies in its first strip. -/
theorem mem_slab1_of_range (b : OrientedBoundingBox) (h : b.IsRectangle) (n : Vector2f)
    (k : ℚ) (hk : k ≠ 0) (hn : n = k • (b.P1 - b.P0)) (q : Vector2f)
    (hlo : (b.ProjectOntoAxis n).1 ≤ projection q n)
    (hhi : projection q n ≤ (b.ProjectOntoAxis n).2) : q ∈ b.slab1 := by
  obtain ⟨hP2, horth, hne1, -⟩ := h
  have hd : 0 < projection (b.P1 - b.P0) (b.P1 - b.P0) :=
    projection_self_pos _ (sub_ne_zero.2 hne1)
  have h3 : projection (b.P3 - b.P0) (b.P1 - b.P0) = 0 := by
    rw [projection_comm]; exact horth
  rw [ProjectOntoAxis_fst] at hlo
  rw [ProjectOntoAxis_snd] at hhi
  have e1 : projection b.P1 (b.P1 - b.P0)
      = projection b.P0 (b.P1 - b.P0) + projection (b.P1 - b.P0) (b.P1 - b.P0) := by
    rw [projection_sub (b.P1) (b.P0)]; ring
  have e3 : projection b.P3 (b.P1 - b.P0) = projection b.P0 (b.P1 - b.P0) := by
    rw [projection_sub] at h3; linarith
  have e2 : projection b.P2 (b.P1 - b.P0)
      = projection b.P0 (b.P1 - b.P0) + projection (b.P1 - b.P0) (b.P1 - b.P0) := by
    rw [hP2]
    have : projection (b.P1 + b.P3 - b.P0) (b.P1 - b.P0)
        = projection b.P1 (b.P1 - b.P0) + projection b.P3 (b.P1 - b.P0)
          - projection b.P0 (b.P1 - b.P0) := by
      simp only [projection, Prod.fst_add, Prod.snd_add, Prod.fst_sub, Prod.snd_sub]; ring
    rw [this, e1, e3]; ring
  simp only [hn, projection_smul_right, e1, e2, e3] at hlo hhi
  simp only [OrientedBoundingBox.slab1, slab, Set.mem_setOf_eq, e1]
  generalize projection b.P0 (b.P1 - b.P0) = p0 at *
  generalize projection (b.P1 - b.P0) (b.P1 - b.P0) = d at *
  generalize projection q (b.P1 - b.P0) = t at *
  simp only [min_le_iff, le_max_iff] at hlo hhi
  rcases lt_or_gt_of_ne hk with hk' | hk'
  · have hkd : k * d < 0 := mul_neg_of_neg_of_pos hk' hd
    constructor
    · have : k * t ≤ k * p0 := by rcases hhi with ((h | h) | h) | h <;> nlinarith
      nlinarith
    · have : k * (p0 + d) ≤ k * t := by rcases hlo with ((h | h) | h) | h <;> nlinarith
      nlinarith
  · have hkd : 0 < k * d := mul_pos hk' hd
    constructor
    · have : k * p0 ≤ k * t := by rcases hlo with ((h | h) | h) | h <;> nlinarith
      nlinarith
    · have : k * t ≤ k * (p0 + d) := by rcases hhi with ((h | h) | h) | h <;> nlinarith
      nlinarith

/-- On an axis parallel to the edge `P3 - P0` of a rectangle, a point whose projection
lies between the `Min` and `Max` of the rectangle lies in its second strip. -/
theorem mem_slab2_of_range (b : OrientedBoundingBox) (h : b.IsRectangle) (n : Vector2f)
    (k : ℚ) (hk : k ≠ 0) (hn : n = k • (b.P3 - b.P0)) (q : Vector2f)
    (hlo : (b.ProjectOntoAxis n).1 ≤ projection q n)
    (hhi : projection q n ≤ (b.ProjectOntoAxis n).2) : q ∈ b.slab2 := by
  obtain ⟨hP2, horth, -, hne3⟩ := h
  have hd : 0 < projection (b.P3 - b.P0) (b.P3 - b.P0) :=
    projection_self_pos _ (sub_ne_zero.2 hne3)
  rw [ProjectOntoAxis_fst] at hlo
  rw [ProjectOntoAxis_snd] at hhi
  have e3 : projection b.P3 (b.P3 - b.P0)
      = projection b.P0 (b.P3 - b.P0) + projection (b.P3 - b.P0) (b.P3 - b.P0) := by
    rw [projection_sub (b.P3) (b.P0)]; ring
  have e1 : projection b.P1 (b.P3 - b.P0) = projection b.P0 (b.P3 - b.P0) := by
    rw [projection_sub] at horth; linarith
  have e2 : projection b.P2 (b.P3 - b.P0)
      = projection b.P0 (b.P3 - b.P0) + projection (b.P3 - b.P0) (b.P3 - b.P0) := by
    rw [hP2]
    have : projection (b.P1 + b.P3 - b.P0) (b.P3 - b.P0)
        = projection b.P1 (b.P3 - b.P0) + projection b.P3 (b.P3 - b.P0)
          - projection b.P0 (b.P3 - b.P0) := by
      simp only [projection, Prod.fst_add, Prod.snd_add, Prod.fst_sub, Prod.snd_sub]; ring
    rw [this, e1, e3]; ring
  simp only [hn, projection_smul_right, e1, e2, e3] at hlo hhi
  simp only [OrientedBoundingBox.slab2, slab, Set.mem_setOf_eq, e3]
  generalize projection b.P0 (b.P3 - b.P0) = p0 at *
  generalize projection (b.P3 - b.P0) (b.P3 - b.P0) = d at *
  generalize projection q (b.P3 - b.P0) = t at *
  simp only [min_le_iff, le_max_iff] at hlo hhi
  rcases lt_or_gt_of_ne hk with hk' | hk'
  · have hkd : k * d < 0 := mul_neg_of_neg_of_pos hk' hd
    constructor
    · have : k * t ≤ k * p0 := by rcases hhi with ((h | h) | h) | h <;> nlinarith
      nlinarith
    · have : k * (p0 + d) ≤ k * t := by rcases hlo with ((h | h) | h) | h <;> nlinarith
      nlinarith
  · have hkd : 0 < k * d := mul_pos hk' hd
    constructor
    · have : k * p0 ≤ k * t := by rcases hlo with ((h | h) | h) | h <;> nlinarith
      nlinarith
    · have : k * t ≤ k * (p0 + d) := by rcases hhi with ((h | h) | h) | h <;> nlinarith
      nlinarith

theorem convex_slab1 (b : OrientedBoundingBox) : Convex ℚ b.slab1 := convex_slab _ _ _

theorem convex_slab2 (b : OrientedBoundingBox) : Convex ℚ b.slab2 := convex_slab _ _ _

/-- Separating axis theorem for two rectangles: when their projections overlap on the
edge directions of both, the rectangles have a common point. -/
theorem exists_common_point (b1 b2 : OrientedBoundingBox)
    (h1 : b1.IsRectangle) (h2 : b2.IsRectangle)
    (hA0 : (b2.ProjectOntoAxis (b1.P1 - b1.P0)).1 ≤ (b1.ProjectOntoAxis (b1.P1 - b1.P0)).2 ∧
      (b2.ProjectOntoAxis (b1.P1 - b1.P0)).2 ≥ (b1.ProjectOntoAxis (b1.P1 - b1.P0)).1)
    (hA1 : (b2.ProjectOntoAxis (b1.P1 - b1.P2)).1 ≤ (b1.ProjectOntoAxis (b1.P1 - b1.P2)).2 ∧
      (b2.ProjectOntoAxis (b1.P1 - b1.P2)).2 ≥ (b1.ProjectOntoAxis (b1.P1 - b1.P2)).1)
    (hA2 : (b2.ProjectOntoAxis (b2.P0 - b2.P3)).1 ≤ (b1.ProjectOntoAxis (b2.P0 - b2.P3)).2 ∧
      (b2.ProjectOntoAxis (b2.P0 - b2.P3)).2 ≥ (b1.ProjectOntoAxis (b2.P0 - b2.P3)).1)
    (hA3 : (b2.ProjectOntoAxis (b2.P0 - b2.P1)).1 ≤ (b1.ProjectOntoAxis (b2.P0 - b2.P1)).2 ∧
      (b2.ProjectOntoAxis (b2.P0 - b2.P1)).2 ≥ (b1.ProjectOntoAxis (b2.P0 - b2.P1)).1) :
    ∃ p : Vector2f, p ∈ b1.region ∧ p ∈ b2.region := by
  have k0 : b1.P1 - b1.P0 = (1 : ℚ) • (b1.P1 - b1.P0) := (one_smul _ _).symm
  have k1 : b1.P1 - b1.P2 = (-1 : ℚ) • (b1.P3 - b1.P0) := by
    rw [h1.1]; ext <;> simp <;> ring
  have k2 : b2.P0 - b2.P3 = (-1 : ℚ) • (b2.P3 - b2.P0) := by ext <;> simp
  have k3 : b2.P0 - b2.P1 = (-1 : ℚ) • (b2.P1 - b2.P0) := by ext <;> simp
  -- a point of the second box inside the first strip of the first box
  obtain ⟨x1, y1, hx10, hx11, hy10, hy11, hl1, hu1⟩ :=
    exists_param_in_range b2 b1 h2.1 (b1.P1 - b1.P0) hA0.2 hA0.1
  have q1a := mem_slab1_of_range b1 h1 _ 1 one_ne_zero k0 _ hl1 hu1
  -- a point of the second box inside the second strip of the first box
  obtain ⟨x0, y0, hx00, hx01, hy00, hy01, hl0, hu0⟩ :=
    exists_param_in_range b2 b1 h2.1 (b1.P1 - b1.P2) hA1.2 hA1.1
  have q0a := mem_slab2_of_range b1 h1 _ (-1) (by norm_num) k1 _ hl0 hu0
  -- a point of the first box inside the second strip of the second box
  obtain ⟨x2, y2, hx20, hx21, hy20, hy21, hl2, hu2⟩ :=
    exists_param_in_range b1 b2 h1.1 (b2.P0 - b2.P3) hA2.1 hA2.2
  have q2a := mem_slab2_of_range b2 h2 _ (-1) (by norm_num) k2 _ hl2 hu2
  -- a point of the first box inside the first strip of the second box
  obtain ⟨x3, y3, hx30, hx31, hy30, hy31, hl3, hu3⟩ :=
    exists_param_in_range b1 b2 h1.1 (b2.P0 - b2.P1) hA3.1 hA3.2
  have q3a := mem_slab1_of_range b2 h2 _ (-1) (by norm_num) k3 _ hl3 hu3
  have hfin : Module.finrank ℚ Vector2f = 2 := by simp
  have key : (⋂ i ∈ (Finset.univ : Finset (Fin 4)), strips b1 b2 i).Nonempty := by
    refine @Convex.helly_theorem' (Fin 4) ℚ Vector2f _ _ _ _ (strips b1 b2) Finset.univ ?_ ?_
    · intro i _
      fin_cases i
      · exact convex_slab1 b1
      · exact convex_slab2 b1
      · exact convex_slab1 b2
      · exact convex_slab2 b2
    · intro I _ hcard
      rw [hfin] at hcard
      have hex : ∃ k, k ∉ I := by
        by_contra hc
        push_neg at hc
        have : I = Finset.univ := Finset.eq_univ_iff_forall.2 hc
        rw [this] at hcard
        simp at hcard
      obtain ⟨k, hk⟩ := hex
      fin_cases k
      · refine ⟨b2.P0 + x0 • (b2.P1 - b2.P0) + y0 • (b2.P3 - b2.P0), ?_⟩
        simp only [Set.mem_iInter]
        intro i hi
        fin_cases i
        · exact absurd hi hk
        · exact q0a
        · exact param_mem_slab1 b2 h2 _ _ hx00 hx01
        · exact param_mem_slab2 b2 h2 _ _ hy00 hy01
      · refine ⟨b2.P0 + x1 • (b2.P1 - b2.P0) + y1 • (b2.P3 - b2.P0), ?_⟩
        simp only [Set.mem_iInter]
        intro i hi
        fin_cases i
        · exact q1a
        · exact absurd hi hk
        · exact param_mem_slab1 b2 h2 _ _ hx10 hx11
        · exact param_mem_slab2 b2 h2 _ _ hy10 hy11
      · refine ⟨b1.P0 + x2 • (b1.P1 - b1.P0) + y2 • (b1.P3 - b1.P0), ?_⟩
        simp only [Set.mem_iInter]
        intro i hi
        fin_cases i
        · exact param_mem_slab1 b1 h1 _ _ hx20 hx21
        · exact param_mem_slab2 b1 h1 _ _ hy20 hy21
        · exact absurd hi hk
        · exact q2a
      · refine ⟨b1.P0 + x3 • (b1.P1 - b1.P0) + y3 • (b1.P3 - b1.P0), ?_⟩
        simp only [Set.mem_iInter]
        intro i hi
        fin_cases i
        · exact param_mem_slab1 b1 h1 _ _ hx30 hx31
        · exact param_mem_slab2 b1 h1 _ _ hy30 hy31
        · exact q3a
        · exact absurd hi hk
  obtain ⟨p, hp⟩ := key
  simp only [Set.mem_iInter] at hp
  exact ⟨p, mem_region_of_mem_slabs b1 h1 p (hp 0 (Finset.mem_univ _)) (hp 1 (Finset.mem_univ _)),
    mem_region_of_mem_slabs b2 h2 p (hp 2 (Finset.mem_univ _)) (hp 3 (Finset.mem_univ _))⟩

theorem sq_add_sq_pos_of (c s : ℚ) (h : c ≠ 0 ∨ s ≠ 0) : 0 < c * c + s * s := by
  rcases h with h | h
  · have := mul_self_pos.2 h
    nlinarith [mul_self_nonneg s]
  · have := mul_self_pos.2 h
    nlinarith [mul_self_nonneg c]

theorem ofSprite_isRectangle (s : Sprite) (h : s.Nondegenerate) :
    (OrientedBoundingBox.ofSprite s).IsRectangle := by
  obtain ⟨hw, hh, hsx, hsy, hcs⟩ := h
  have hw' : (s.textureRect.width : ℚ) ≠ 0 := by exact_mod_cast hw.ne'
  have hh' : (s.textureRect.height : ℚ) ≠ 0 := by exact_mod_cast hh.ne'
  have hpos := sq_add_sq_pos_of _ _ hcs
  refine ⟨?_, ?_, ?_, ?_⟩
  · simp only [OrientedBoundingBox.ofSprite, Transform.transformPoint, Sprite.getTransform]
    ext
    · simp only [Prod.fst_add, Prod.fst_sub]; ring
    · simp only [Prod.snd_add, Prod.snd_sub]; ring
  · simp only [OrientedBoundingBox.ofSprite, Transform.transformPoint, Sprite.getTransform,
      projection, Prod.fst_sub, Prod.snd_sub]
    ring
  · intro he
    simp only [OrientedBoundingBox.ofSprite, Transform.transformPoint, Sprite.getTransform,
      Prod.mk.injEq] at he
    obtain ⟨e1, e2⟩ := he
    have e1' : s.scale.1 * s.cosine * s.textureRect.width = 0 := by linarith
    have e2' : s.scale.1 * s.sine * s.textureRect.width = 0 := by linarith
    have c0 : s.cosine = 0 := by
      rcases mul_eq_zero.1 e1' with h | h
      · rcases mul_eq_zero.1 h with h | h
        · exact absurd h hsx
        · exact h
      · exact absurd h hw'
    have s0 : s.sine = 0 := by
      rcases mul_eq_zero.1 e2' with h | h
      · rcases mul_eq_zero.1 h with h | h
        · exact absurd h hsx
        · exact h
      · exact absurd h hw'
    rw [c0, s0] at hpos
    simp at hpos
  · intro he
    simp only [OrientedBoundingBox.ofSprite, Transform.transformPoint, Sprite.getTransform,
      Prod.mk.injEq] at he
    obtain ⟨e1, e2⟩ := he
    have e1' : s.scale.2 * s.sine * s.textureRect.height = 0 := by linarith
    have e2' : s.scale.2 * s.cosine * s.textureRect.height = 0 := by linarith
    have s0 : s.sine = 0 := by
      rcases mul_eq_zero.1 e1' with h | h
      · rcases mul_eq_zero.1 h with h | h
        · exact absurd h hsy
        · exact h
      · exact absurd h hh'
    have c0 : s.cosine = 0 := by
      rcases mul_eq_zero.1 e2' with h | h
      · rcases mul_eq_zero.1 h with h | h
        · exact absurd h hsy
        · exact h
      · exact absurd h hh'
    rw [c0, s0] at hpos
    simp at hpos

theorem BoundingBoxTest_eq_true_iff (Object1 Object2 : Sprite) :
    BoundingBoxTest Object1 Object2 = true ↔
      overlapOn (OrientedBoundingBox.ofSprite Object1) (OrientedBoundingBox.ofSprite Object2)
        ((OrientedBoundingBox.ofSprite Object1).P1 - (OrientedBoundingBox.ofSprite Object1).P0) ∧
      overlapOn (OrientedBoundingBox.ofSprite Object1) (OrientedBoundingBox.ofSprite Object2)
        ((OrientedBoundingBox.ofSprite Object1).P1 - (OrientedBoundingBox.ofSprite Object1).P2) ∧
      overlapOn (OrientedBoundingBox.ofSprite Object1) (OrientedBoundingBox.ofSprite Object2)
        ((OrientedBoundingBox.ofSprite Object2).P0 - (OrientedBoundingBox.ofSprite Object2).P3) ∧
      overlapOn (OrientedBoundingBox.ofSprite Object1) (OrientedBoundingBox.ofSprite Object2)
        ((OrientedBoundingBox.ofSprite Object2).P0 - (OrientedBoundingBox.ofSprite Object2).P1) := by
  simp only [BoundingBoxTest, List.all_cons, List.all_nil, Bool.and_true, Bool.and_eq_true,
    decide_eq_true_eq, overlapOn]
  rfl

theorem overlapOn_of_common_point (b1 b2 : OrientedBoundingBox) (p n : Vector2f)
    (h1 : p ∈ b1.region) (h2 : p ∈ b2.region) : overlapOn b1 b2 n := by
  have a1 := region_subset_slab b1 n h1
  have a2 := region_subset_slab b2 n h2
  simp only [slab, Set.mem_setOf_eq] at a1 a2
  exact ⟨le_trans a2.1 a1.2, le_trans a1.1 a2.2⟩

theorem BoundingBoxTest_of_common_point (Object1 Object2 : Sprite) (p : Vector2f)
    (h1 : p ∈ (OrientedBoundingBox.ofSprite Object1).region)
    (h2 : p ∈ (OrientedBoundingBox.ofSprite Object2).region) :
    BoundingBoxTest Object1 Object2 = true := by
  rw [BoundingBoxTest_eq_true_iff]
  exact ⟨overlapOn_of_common_point _ _ p _ h1 h2, overlapOn_of_common_point _ _ p _ h1 h2,
    overlapOn_of_common_point _ _ p _ h1 h2, overlapOn_of_common_point _ _ p _ h1 h2⟩

theorem common_point_of_BoundingBoxTest (Object1 Object2 : Sprite)
    (h1 : Object1.Nondegenerate) (h2 : Object2.Nondegenerate)
    (h : BoundingBoxTest Object1 Object2 = true) :
    ∃ p : Vector2f, p ∈ (OrientedBoundingBox.ofSprite Object1).region ∧
      p ∈ (OrientedBoundingBox.ofSprite Object2).region := by
  rw [BoundingBoxTest_eq_true_iff] at h
  obtain ⟨a0, a1, a2, a3⟩ := h
  exact exists_common_point _ _ (ofSprite_isRectangle _ h1) (ofSprite_isRectangle _ h2)
    a0 a1 a2 a3

theorem convex_closedRegion (r : FloatRect) : Convex ℚ r.closedRegion := by
  intro x hx y hy a b ha hb hab
  simp only [FloatRect.closedRegion, Set.mem_setOf_eq, Prod.fst_add, Prod.snd_add,
    Prod.smul_fst, Prod.smul_snd, smul_eq_mul] at hx hy ⊢
  have hb' : b = 1 - a := by linarith
  subst hb'
  obtain ⟨x1, x2, x3, x4⟩ := hx
  obtain ⟨y1, y2, y3, y4⟩ := hy
  refine ⟨?_, ?_, ?_, ?_⟩
  · nlinarith [mul_nonneg ha (sub_nonneg.2 x1), mul_nonneg hb (sub_nonneg.2 y1)]
  · nlinarith [mul_nonneg ha (sub_nonneg.2 x2), mul_nonneg hb (sub_nonneg.2 y2)]
  · nlinarith [mul_nonneg ha (sub_nonneg.2 x3), mul_nonneg hb (sub_nonneg.2 y3)]
  · nlinarith [mul_nonneg ha (sub_nonneg.2 x4), mul_nonneg hb (sub_nonneg.2 y4)]

/-- For a texture rectangle of non-negative size the global bounds are the bounding
rectangle of the four corners of the oriented bounding box. -/
theorem getGlobalBounds_eq (s : Sprite) (hw : 0 ≤ s.textureRect.width)
    (hh : 0 ≤ s.textureRect.height) :
    s.getGlobalBounds =
      ⟨min (min (OrientedBoundingBox.ofSprite s).P0.1 (OrientedBoundingBox.ofSprite s).P3.1)
          (min (OrientedBoundingBox.ofSprite s).P1.1 (OrientedBoundingBox.ofSprite s).P2.1),
        min (min (OrientedBoundingBox.ofSprite s).P0.2 (OrientedBoundingBox.ofSprite s).P3.2)
          (min (OrientedBoundingBox.ofSprite s).P1.2 (OrientedBoundingBox.ofSprite s).P2.2),
        max (max (OrientedBoundingBox.ofSprite s).P0.1 (OrientedBoundingBox.ofSprite s).P3.1)
            (max (OrientedBoundingBox.ofSprite s).P1.1 (OrientedBoundingBox.ofSprite s).P2.1)
          - min (min (OrientedBoundingBox.ofSprite s).P0.1 (OrientedBoundingBox.ofSprite s).P3.1)
            (min (OrientedBoundingBox.ofSprite s).P1.1 (OrientedBoundingBox.ofSprite s).P2.1),
        max (max (OrientedBoundingBox.ofSprite s).P0.2 (OrientedBoundingBox.ofSprite s).P3.2)
            (max (OrientedBoundingBox.ofSprite s).P1.2 (OrientedBoundingBox.ofSprite s).P2.2)
          - min (min (OrientedBoundingBox.ofSprite s).P0.2 (OrientedBoundingBox.ofSprite s).P3.2)
            (min (OrientedBoundingBox.ofSprite s).P1.2 (OrientedBoundingBox.ofSprite s).P2.2)⟩ := by
  simp only [Sprite.getGlobalBounds, Sprite.getLocalBounds, Transform.transformRect,
    OrientedBoundingBox.ofSprite, abs_of_nonneg hw, abs_of_nonneg hh, zero_add]

theorem region_subset_globalBounds (s : Sprite) (hw : 0 ≤ s.textureRect.width)
    (hh : 0 ≤ s.textureRect.height) :
    (OrientedBoundingBox.ofSprite s).region ⊆ s.getGlobalBounds.closedRegion := by
  apply convexHull_min _ (convex_closedRegion _)
  rw [getGlobalBounds_eq s hw hh]
  intro q hq
  simp only [Set.mem_insert_iff, Set.mem_singleton_iff] at hq
  simp only [FloatRect.closedRegion, Set.mem_setOf_eq, add_sub_cancel, min_le_iff, le_max_iff]
  rcases hq with rfl | rfl | rfl | rfl <;> simp

theorem transformPoint_getInverse (t : Transform)
    (hdet : t.a00 * t.a11 - t.a10 * t.a01 ≠ 0) (x y : ℚ) :
    t.transformPoint (t.getInverse.transformPoint x y).1 (t.getInverse.transformPoint x y).2
      = (x, y) := by
  simp only [Transform.getInverse, hdet, ne_eq, not_false_eq_true, if_true,
    Transform.transformPoint, Prod.mk.injEq]
  constructor
  · field_simp
    ring
  · field_simp
    ring

theorem getTransform_det_ne_zero (s : Sprite) (h : s.HasInvertibleTransform) :
    s.getTransform.a00 * s.getTransform.a11 - s.getTransform.a10 * s.getTransform.a01 ≠ 0 := by
  obtain ⟨hsx, hsy, hcs⟩ := h
  have hpos := sq_add_sq_pos_of _ _ hcs
  have : s.getTransform.a00 * s.getTransform.a11 - s.getTransform.a10 * s.getTransform.a01
      = s.scale.1 * s.scale.2 * (s.cosine * s.cosine + s.sine * s.sine) := by
    simp only [Sprite.getTransform]
    ring
  rw [this]
  exact mul_ne_zero (mul_ne_zero hsx hsy) hpos.ne'

theorem ofSprite_P2 (s : Sprite) :
    (OrientedBoundingBox.ofSprite s).P2
      = (OrientedBoundingBox.ofSprite s).P1 + (OrientedBoundingBox.ofSprite s).P3
        - (OrientedBoundingBox.ofSprite s).P0 := by
  simp only [OrientedBoundingBox.ofSprite, Transform.transformPoint, Sprite.getTransform]
  ext
  · simp only [Prod.fst_add, Prod.fst_sub]; ring
  · simp only [Prod.snd_add, Prod.snd_sub]; ring

/-- A world point whose local coordinates pass the sub-rectangle check of
`PixelPerfectTest` lies in the oriented bounding box of the sprite. -/
theorem mem_region_of_local (s : Sprite) (h : s.HasInvertibleTransform) (x y : ℚ)
    (hx0 : 0 < (s.getInverseTransform.transformPoint x y).1)
    (hx1 : (s.getInverseTransform.transformPoint x y).1 < s.textureRect.width)
    (hy0 : 0 < (s.getInverseTransform.transformPoint x y).2)
    (hy1 : (s.getInverseTransform.transformPoint x y).2 < s.textureRect.height) :
    (x, y) ∈ (OrientedBoundingBox.ofSprite s).region := by
  have hinv := transformPoint_getInverse s.getTransform (getTransform_det_ne_zero s h) x y
  have hw : (0 : ℚ) < s.textureRect.width := lt_trans hx0 hx1
  have hh : (0 : ℚ) < s.textureRect.height := lt_trans hy0 hy1
  have hmem := mem_region_of_param (OrientedBoundingBox.ofSprite s) (ofSprite_P2 s)
    ((s.getInverseTransform.transformPoint x y).1 / s.textureRect.width)
    ((s.getInverseTransform.transformPoint x y).2 / s.textureRect.height)
    (div_nonneg hx0.le hw.le) ((div_le_one hw).2 hx1.le)
    (div_nonneg hy0.le hh.le) ((div_le_one hh).2 hy1.le)
  convert hmem using 1
  rw [← hinv]
  simp only [Sprite.getInverseTransform, OrientedBoundingBox.ofSprite, Transform.transformPoint]
  ext
  · simp only [Prod.fst_add, Prod.smul_fst, Prod.fst_sub, smul_eq_mul]
    field_simp
    ring
  · simp only [Prod.snd_add, Prod.smul_snd, Prod.snd_sub, smul_eq_mul]
    field_simp
    ring

theorem HasPositiveScale.invertible (s : Sprite) (h : s.HasPositiveScale) :
    s.HasInvertibleTransform := by
  obtain ⟨hx, hy, hcs⟩ := h
  refine ⟨hx.ne', hy.ne', ?_⟩
  by_contra hc
  push_neg at hc
  rw [hc.1, hc.2] at hcs
  norm_num at hcs

theorem exists_pixel_of_PixelPerfectTest (oob : Nat → Nat) (mgr : BitmaskManager)
    (Object1 Object2 : Sprite) (AlphaLimit : Nat)
    (h : (PixelPerfectTest oob mgr Object1 Object2 AlphaLimit).1 = true) :
    ∃ i j : Int,
      (0 < (Object1.getInverseTransform.transformPoint i j).1 ∧
        (Object1.getInverseTransform.transformPoint i j).1 < Object1.textureRect.width ∧
        0 < (Object1.getInverseTransform.transformPoint i j).2 ∧
        (Object1.getInverseTransform.transformPoint i j).2 < Object1.textureRect.height) ∧
      (0 < (Object2.getInverseTransform.transformPoint i j).1 ∧
        (Object2.getInverseTransform.transformPoint i j).1 < Object2.textureRect.width ∧
        0 < (Object2.getInverseTransform.transformPoint i j).2 ∧
        (Object2.getInverseTransform.transformPoint i j).2 < Object2.textureRect.height) := by
  rw [PixelPerfectTest_eq_true_iff] at h
  obtain ⟨-, i, j, -, -, -, -, c1, c2, -, -⟩ := h
  exact ⟨i, j, c1, c2⟩

theorem min_add_max_parallelogram (a b c : ℚ) :
    min (min a c) (min b (b + c - a)) + max (max a c) (max b (b + c - a)) = b + c := by
  simp only [min_def, max_def]
  split_ifs <;> linarith

theorem GetSpriteCenter_eq (s : Sprite) (hw : 0 ≤ s.textureRect.width)
    (hh : 0 ≤ s.textureRect.height) :
    GetSpriteCenter s
      = s.getTransform.transformPoint ((s.textureRect.width : ℚ) / 2)
          ((s.textureRect.height : ℚ) / 2) := by
  have h2 := ofSprite_P2 s
  have h21 : (OrientedBoundingBox.ofSprite s).P2.1 = (OrientedBoundingBox.ofSprite s).P1.1
      + (OrientedBoundingBox.ofSprite s).P3.1 - (OrientedBoundingBox.ofSprite s).P0.1 := by
    rw [h2]; simp
  have h22 : (OrientedBoundingBox.ofSprite s).P2.2 = (OrientedBoundingBox.ofSprite s).P1.2
      + (OrientedBoundingBox.ofSprite s).P3.2 - (OrientedBoundingBox.ofSprite s).P0.2 := by
    rw [h2]; simp
  have m1 := min_add_max_parallelogram (OrientedBoundingBox.ofSprite s).P0.1
    (OrientedBoundingBox.ofSprite s).P1.1 (OrientedBoundingBox.ofSprite s).P3.1
  have m2 := min_add_max_parallelogram (OrientedBoundingBox.ofSprite s).P0.2
    (OrientedBoundingBox.ofSprite s).P1.2 (OrientedBoundingBox.ofSprite s).P3.2
  rw [← h21] at m1
  rw [← h22] at m2
  unfold GetSpriteCenter
  rw [getGlobalBounds_eq s hw hh]
  ext
  · simp only
    have e : (OrientedBoundingBox.ofSprite s).P1.1 + (OrientedBoundingBox.ofSprite s).P3.1
        = 2 * (s.getTransform.transformPoint ((s.textureRect.width : ℚ) / 2)
          ((s.textureRect.height : ℚ) / 2)).1 := by
      simp only [OrientedBoundingBox.ofSprite, Transform.transformPoint]
      ring
    linarith
  · simp only
    have e : (OrientedBoundingBox.ofSprite s).P1.2 + (OrientedBoundingBox.ofSprite s).P3.2
        = 2 * (s.getTransform.transformPoint ((s.textureRect.width : ℚ) / 2)
          ((s.textureRect.height : ℚ) / 2)).2 := by
      simp only [OrientedBoundingBox.ofSprite, Transform.transformPoint]
      ring
    linarith

theorem sq_dist_le_of_le (u v : Vector2f) (R1 R2 : ℚ) (hR1 : 0 ≤ R1) (hR2 : 0 ≤ R2)
    (hu : u.1 * u.1 + u.2 * u.2 ≤ R1 * R1) (hv : v.1 * v.1 + v.2 * v.2 ≤ R2 * R2) :
    (u.1 - v.1) * (u.1 - v.1) + (u.2 - v.2) * (u.2 - v.2) ≤ (R1 + R2) * (R1 + R2) := by
  have hcs : (u.1 * v.1 + u.2 * v.2) * (u.1 * v.1 + u.2 * v.2)
      ≤ (R1 * R2) * (R1 * R2) := by
    have h1 : (u.1 * v.1 + u.2 * v.2) * (u.1 * v.1 + u.2 * v.2)
        ≤ (u.1 * u.1 + u.2 * u.2) * (v.1 * v.1 + v.2 * v.2) := by
      nlinarith [mul_self_nonneg (u.1 * v.2 - u.2 * v.1)]
    have h2 : (u.1 * u.1 + u.2 * u.2) * (v.1 * v.1 + v.2 * v.2) ≤ (R1 * R1) * (R2 * R2) :=
      mul_le_mul hu hv (add_nonneg (mul_self_nonneg _) (mul_self_nonneg _))
        (mul_self_nonneg _)
    nlinarith
  have hd : -(u.1 * v.1 + u.2 * v.2) ≤ R1 * R2 := by
    by_contra hc
    push_neg at hc
    have hp : 0 ≤ R1 * R2 := mul_nonneg hR1 hR2
    nlinarith
  nlinarith

theorem sq_dist_center_le (s : Sprite) (h : s.HasPositiveScale) (x y : ℚ)
    (hx0 : 0 < (s.getInverseTransform.transformPoint x y).1)
    (hx1 : (s.getInverseTransform.transformPoint x y).1 < s.textureRect.width)
    (hy0 : 0 < (s.getInverseTransform.transformPoint x y).2)
    (hy1 : (s.getInverseTransform.transformPoint x y).2 < s.textureRect.height) :
    0 ≤ 2 * (((GetSpriteSize s).1 + (GetSpriteSize s).2) / 4) ∧
    (x - (GetSpriteCenter s).1) * (x - (GetSpriteCenter s).1)
        + (y - (GetSpriteCenter s).2) * (y - (GetSpriteCenter s).2)
      ≤ (2 * (((GetSpriteSize s).1 + (GetSpriteSize s).2) / 4))
        * (2 * (((GetSpriteSize s).1 + (GetSpriteSize s).2) / 4)) := by
  have hinv := transformPoint_getInverse s.getTransform
    (getTransform_det_ne_zero s (HasPositiveScale.invertible s h)) x y
  obtain ⟨hsx, hsy, hcs⟩ := h
  have hw : (0 : ℚ) < s.textureRect.width := lt_trans hx0 hx1
  have hh : (0 : ℚ) < s.textureRect.height := lt_trans hy0 hy1
  have hw' : 0 ≤ s.textureRect.width := by exact_mod_cast hw.le
  have hh' : 0 ≤ s.textureRect.height := by exact_mod_cast hh.le
  rw [GetSpriteCenter_eq s hw' hh']
  simp only [Sprite.getInverseTransform] at hx0 hx1 hy0 hy1
  generalize (s.getTransform.getInverse.transformPoint x y).1 = o1 at *
  generalize (s.getTransform.getInverse.transformPoint x y).2 = o2 at *
  simp only [Transform.transformPoint, Sprite.getTransform, Prod.mk.injEq] at hinv
  obtain ⟨ex, ey⟩ := hinv
  simp only [Transform.transformPoint, Sprite.getTransform, GetSpriteSize]
  generalize (s.textureRect.width : ℚ) = w at *
  generalize (s.textureRect.height : ℚ) = ht at *
  generalize s.scale.1 = sx at *
  generalize s.scale.2 = sy at *
  generalize s.cosine = c at *
  generalize s.sine = sn at *
  have ha : 0 < w * sx := mul_pos hw hsx
  have hb : 0 < ht * sy := mul_pos hh hsy
  constructor
  · linarith
  · have e1 : x - (sx * c * (w / 2) + sy * sn * (ht / 2)
          + (-s.origin.1 * (sx * c) - s.origin.2 * (sy * sn) + s.position.1))
        = sx * c * (o1 - w / 2) + sy * sn * (o2 - ht / 2) := by
      rw [← ex]; ring
    have e2 : y - (-(sx * sn) * (w / 2) + sy * c * (ht / 2)
          + (s.origin.1 * (sx * sn) - s.origin.2 * (sy * c) + s.position.2))
        = -(sx * sn) * (o1 - w / 2) + sy * c * (o2 - ht / 2) := by
      rw [← ey]; ring
    rw [e1, e2]
    have e : ∀ A B : ℚ, (sx * c * A + sy * sn * B) * (sx * c * A + sy * sn * B)
        + (-(sx * sn) * A + sy * c * B) * (-(sx * sn) * A + sy * c * B)
        = A * A * (sx * sx) + B * B * (sy * sy) := by
      intro A B
      linear_combination (A * A * (sx * sx) + B * B * (sy * sy)) * hcs
    rw [e]
    have hA : (o1 - w / 2) * (o1 - w / 2) ≤ (w / 2) * (w / 2) := by
      nlinarith [mul_pos hx0 (sub_pos.2 hx1)]
    have hB : (o2 - ht / 2) * (o2 - ht / 2) ≤ (ht / 2) * (ht / 2) := by
      nlinarith [mul_pos hy0 (sub_pos.2 hy1)]
    have hA' := mul_le_mul_of_nonneg_right hA (mul_self_nonneg sx)
    have hB' := mul_le_mul_of_nonneg_right hB (mul_self_nonneg sy)
    nlinarith [mul_pos ha hb]

/-! ## Lemmas on the mask cache, the pixel reads and the symmetry of the box test -/

theorem mapInsert_of_lookup_none (m : List (Nat × List Nat)) (key : Nat) (mask : List Nat)
    (h : m.lookup key = none) : mapInsert m key mask = (key, mask) :: m := by
  simp [mapInsert, h]

theorem mapInsert_of_lookup_some (m : List (Nat × List Nat)) (key : Nat) (mask old : List Nat)
    (h : m.lookup key = some old) : mapInsert m key mask = m := by
  simp [mapInsert, h]

theorem mem_mapInsert (m : List (Nat × List Nat)) (key : Nat) (mask : List Nat)
    (e : Nat × List Nat) (he : e ∈ m) : e ∈ mapInsert m key mask := by
  cases h : m.lookup key with
  | none => rw [mapInsert_of_lookup_none m key mask h]; exact List.mem_cons_of_mem _ he
  | some old => rw [mapInsert_of_lookup_some m key mask old h]; exact he

theorem lookup_cons_of_ne (m : List (Nat × List Nat)) (key k : Nat) (mask : List Nat)
    (hne : k ≠ key) : ((key, mask) :: m).lookup k = m.lookup k := by
  have hb : (k == key) = false := by simpa using hne
  rw [List.lookup_cons, hb]

theorem lookup_mapInsert_of_some (m : List (Nat × List Nat)) (key : Nat) (mask : List Nat)
    (k : Nat) (v : List Nat) (hk : m.lookup k = some v) :
    (mapInsert m key mask).lookup k = some v := by
  cases h : m.lookup key with
  | none =>
    rw [mapInsert_of_lookup_none m key mask h]
    have hne : k ≠ key := by
      rintro rfl
      rw [h] at hk
      exact absurd hk (by simp)
    rw [lookup_cons_of_ne _ _ _ _ hne]
    exact hk
  | some old => rw [mapInsert_of_lookup_some m key mask old h]; exact hk

theorem nodup_keys_mapInsert (m : List (Nat × List Nat)) (key : Nat) (mask : List Nat)
    (hnd : (m.map Prod.fst).Nodup) : ((mapInsert m key mask).map Prod.fst).Nodup := by
  cases h : m.lookup key with
  | none =>
    rw [mapInsert_of_lookup_none m key mask h]
    simp only [List.map_cons, List.nodup_cons]
    refine ⟨?_, hnd⟩
    rw [List.lookup_eq_none_iff] at h
    intro hmem
    obtain ⟨p, hp, hpk⟩ := List.mem_map.1 hmem
    have := h p hp
    simp [hpk] at this
  | some old => rw [mapInsert_of_lookup_some m key mask old h]; exact hnd

theorem lookup_CreateMask_of_none (mgr : BitmaskManager) (tex : Texture) (img : Image)
    (h : mgr.Bitmasks.lookup tex.id = none) :
    (mgr.CreateMask tex img).2.Bitmasks.lookup tex.id = some (mgr.CreateMask tex img).1 := by
  simp only [BitmaskManager.CreateMask]
  rw [mapInsert_of_lookup_none _ _ _ h]
  simp

/-- After `GetMask` the cache maps the address of the texture to the returned mask. -/
theorem lookup_GetMask (mgr : BitmaskManager) (tex : Texture) :
    (mgr.GetMask tex).2.Bitmasks.lookup tex.id = some (mgr.GetMask tex).1 := by
  unfold BitmaskManager.GetMask
  cases h : mgr.Bitmasks.lookup tex.id with
  | none => exact lookup_CreateMask_of_none mgr tex _ h
  | some mask => exact h

theorem GetMask_of_lookup_some (mgr : BitmaskManager) (tex : Texture) (mask : List Nat)
    (h : mgr.Bitmasks.lookup tex.id = some mask) : mgr.GetMask tex = (mask, mgr) := by
  simp [BitmaskManager.GetMask, h]

theorem GetMask_of_lookup_none (mgr : BitmaskManager) (tex : Texture)
    (h : mgr.Bitmasks.lookup tex.id = none) :
    mgr.GetMask tex = mgr.CreateMask tex tex.copyToImage := by
  simp [BitmaskManager.GetMask, h]

theorem mem_CreateMask (mgr : BitmaskManager) (tex : Texture) (img : Image)
    (e : Nat × List Nat) (he : e ∈ mgr.Bitmasks) : e ∈ (mgr.CreateMask tex img).2.Bitmasks :=
  mem_mapInsert _ _ _ e he

theorem mem_GetMask (mgr : BitmaskManager) (tex : Texture)
    (e : Nat × List Nat) (he : e ∈ mgr.Bitmasks) : e ∈ (mgr.GetMask tex).2.Bitmasks := by
  unfold BitmaskManager.GetMask
  cases h : mgr.Bitmasks.lookup tex.id with
  | none => exact mem_CreateMask mgr tex _ e he
  | some mask => exact he

theorem lookup_CreateMask_of_some (mgr : BitmaskManager) (tex : Texture) (img : Image)
    (k : Nat) (v : List Nat) (hk : mgr.Bitmasks.lookup k = some v) :
    (mgr.CreateMask tex img).2.Bitmasks.lookup k = some v :=
  lookup_mapInsert_of_some _ _ _ k v hk

theorem lookup_GetMask_of_some (mgr : BitmaskManager) (tex : Texture)
    (k : Nat) (v : List Nat) (hk : mgr.Bitmasks.lookup k = some v) :
    (mgr.GetMask tex).2.Bitmasks.lookup k = some v := by
  unfold BitmaskManager.GetMask
  cases h : mgr.Bitmasks.lookup tex.id with
  | none => exact lookup_CreateMask_of_some mgr tex _ k v hk
  | some mask => exact hk

theorem nodup_keys_CreateMask (mgr : BitmaskManager) (tex : Texture) (img : Image)
    (hnd : (mgr.Bitmasks.map Prod.fst).Nodup) :
    ((mgr.CreateMask tex img).2.Bitmasks.map Prod.fst).Nodup :=
  nodup_keys_mapInsert _ _ _ hnd

theorem nodup_keys_GetMask (mgr : BitmaskManager) (tex : Texture)
    (hnd : (mgr.Bitmasks.map Prod.fst).Nodup) :
    ((mgr.GetMask tex).2.Bitmasks.map Prod.fst).Nodup := by
  unfold BitmaskManager.GetMask
  cases h : mgr.Bitmasks.lookup tex.id with
  | none => exact nodup_keys_CreateMask mgr tex _ hnd
  | some mask => exact hnd

theorem CacheCall.run_cases (mgr : BitmaskManager) (c : CacheCall) :
    c.run mgr = mgr ∨ (∃ tex img, c.run mgr = (mgr.CreateMask tex img).2) ∨
      (∃ tex, c.run mgr = (mgr.GetMask tex).2) ∨
      (∃ t1 t2, c.run mgr = ((mgr.GetMask t1).2.GetMask t2).2) := by
  cases c with
  | getMask tex => exact Or.inr (Or.inr (Or.inl ⟨tex, rfl⟩))
  | createMask tex img => exact Or.inr (Or.inl ⟨tex, img, rfl⟩)
  | createTextureAndBitmask LoadInto file accepted =>
    cases file with
    | none => exact Or.inl rfl
    | some img =>
      cases accepted with
      | false => exact Or.inl rfl
      | true => exact Or.inr (Or.inl ⟨_, img, rfl⟩)
  | pixelPerfectTest oob Object1 Object2 AlphaLimit =>
    simp only [CacheCall.run, PixelPerfectTest]
    split_ifs with h
    · exact Or.inr (Or.inr (Or.inr ⟨_, _, rfl⟩))
    · exact Or.inl rfl

theorem projection_neg_right (P n : Vector2f) : projection P (-n) = -projection P n := by
  simp only [projection, Prod.fst_neg, Prod.snd_neg]
  ring

theorem ProjectOntoAxis_neg (b : OrientedBoundingBox) (n : Vector2f) :
    b.ProjectOntoAxis (-n) = (-(b.ProjectOntoAxis n).2, -(b.ProjectOntoAxis n).1) := by
  ext
  · rw [ProjectOntoAxis_fst, ProjectOntoAxis_snd]
    simp only [projection_neg_right, min_neg_neg]
  · rw [ProjectOntoAxis_snd, ProjectOntoAxis_fst]
    simp only [projection_neg_right, max_neg_neg]

theorem overlapOn_neg (b1 b2 : OrientedBoundingBox) (n : Vector2f) :
    overlapOn b1 b2 (-n) ↔ overlapOn b1 b2 n := by
  simp only [overlapOn, ProjectOntoAxis_neg, neg_le_neg_iff, ge_iff_le]
  exact And.comm

theorem overlapOn_comm (b1 b2 : OrientedBoundingBox) (n : Vector2f) :
    overlapOn b1 b2 n ↔ overlapOn b2 b1 n := by
  simp only [overlapOn, ge_iff_le]
  exact And.comm

theorem ofSprite_edge (s : Sprite) :
    (OrientedBoundingBox.ofSprite s).P1 - (OrientedBoundingBox.ofSprite s).P2
      = (OrientedBoundingBox.ofSprite s).P0 - (OrientedBoundingBox.ofSprite s).P3 := by
  rw [ofSprite_P2 s]
  abel

theorem toUnsigned_lt (o : ℚ) (w left : Int) (T : Nat) (h0 : 0 < o) (h1 : o < w)
    (hl : 0 ≤ left) (hT : left + w ≤ (T : Int)) : toUnsigned (toInt o + left) < T := by
  have e : toInt o = ⌊o⌋ := by simp [toInt, h0.le]
  have f0 : 0 ≤ ⌊o⌋ := Int.floor_nonneg.2 h0.le
  have f1 : ⌊o⌋ < w := Int.floor_lt.2 h1
  rw [e]
  unfold toUnsigned
  omega

theorem index_lt (x y W H : Nat) (hx : x < W) (hy : y < H) : x + y * W < W * H := by
  have h1 : (y + 1) * W ≤ H * W := Nat.mul_le_mul_right _ hy
  have h2 : (y + 1) * W = y * W + W := by ring
  have h3 : H * W = W * H := Nat.mul_comm _ _
  omega

theorem GetPixelIndex_of_lt (tex : Texture) (x y : Nat) (hx : x < tex.size.1)
    (hy : y < tex.size.2) :
    ∃ k, GetPixelIndex tex x y = some k ∧ k < tex.size.1 * tex.size.2 := by
  refine ⟨(x + y * tex.size.1) % 4294967296, ?_, ?_⟩
  · have h : ¬ (x > tex.size.1 ∨ y > tex.size.2) := by omega
    simp [GetPixelIndex, h]
  · exact lt_of_le_of_lt (Nat.mod_le _ _) (index_lt x y _ _ hx hy)

theorem foldl_set_length (l : List Nat) (f g : Nat → Nat) (m : List Nat) :
    (l.foldl (fun m x => m.set (f x) (g x)) m).length = m.length := by
  induction l generalizing m with
  | nil => rfl
  | cons a l ih => rw [List.foldl_cons, ih, List.length_set]

theorem foldl_set_get_of_ne (l : List Nat) (f g : Nat → Nat) (m : List Nat) (k : Nat)
    (hk : ∀ x ∈ l, f x ≠ k) :
    (l.foldl (fun m x => m.set (f x) (g x)) m)[k]? = m[k]? := by
  induction l generalizing m with
  | nil => rfl
  | cons a l ih =>
    rw [List.foldl_cons, ih _ (fun x hx => hk x (List.mem_cons_of_mem _ hx))]
    exact List.getElem?_set_ne (hk a (List.mem_cons_self _ _))

theorem foldl_set_range_get (n : Nat) (f g : Nat → Nat) (m : List Nat)
    (hinj : ∀ x < n, ∀ z < n, f x = f z → x = z) (x : Nat) (hx : x < n)
    (hlt : f x < m.length) :
    ((List.range n).foldl (fun m x => m.set (f x) (g x)) m)[f x]? = some (g x) := by
  induction n with
  | zero => omega
  | succ n ih =>
    rw [List.range_succ, List.foldl_append, List.foldl_cons, List.foldl_nil]
    rcases Nat.lt_succ_iff_lt_or_eq.1 hx with hlt' | rfl
    · have hne : f n ≠ f x := by
        intro he
        have := hinj n (by omega) x (by omega) he
        omega
      rw [List.getElem?_set_ne hne]
      exact ih (fun a ha b hb => hinj a (by omega) b (by omega)) hlt'
    · rw [List.getElem?_set]
      simp [foldl_set_length, hlt]

/-- The rows written by the outer loop of `CreateMask` after `n` iterations. -/
theorem createMask_rows (w M : Nat) (a : Nat → Nat → Nat) (m0 : List Nat) (n : Nat)
    (hM : n * w ≤ m0.length) (hlen : m0.length < M) :
    (((List.range n).foldl (fun m y => (List.range w).foldl
        (fun m x => m.set ((x + y * w) % M) (a x y)) m) m0).length = m0.length) ∧
    ∀ y < n, ∀ x < w,
      ((List.range n).foldl (fun m y => (List.range w).foldl
        (fun m x => m.set ((x + y * w) % M) (a x y)) m) m0)[x + y * w]? = some (a x y) := by
  induction n with
  | zero => exact ⟨rfl, fun y hy => absurd hy (Nat.not_lt_zero _)⟩
  | succ n ih =>
    have hnw : (n + 1) * w = n * w + w := by ring
    obtain ⟨ihlen, ihget⟩ := ih (by omega)
    rw [List.range_succ, List.foldl_append, List.foldl_cons, List.foldl_nil]
    refine ⟨by rw [foldl_set_length, ihlen], ?_⟩
    intro y hy x hx
    have hmod : ∀ z < w, (z + n * w) % M = z + n * w := fun z hz =>
      Nat.mod_eq_of_lt (by omega)
    rcases Nat.lt_succ_iff_lt_or_eq.1 hy with hlt | rfl
    · rw [foldl_set_get_of_ne]
      · exact ihget y hlt x hx
      · intro z hz
        rw [hmod z (List.mem_range.1 hz)]
        have h1 : (y + 1) * w ≤ n * w := Nat.mul_le_mul_right _ hlt
        have h2 : (y + 1) * w = y * w + w := by ring
        omega
    · have key := foldl_set_range_get w (fun z => (z + y * w) % M) (fun z => a z y)
        ((List.range y).foldl (fun m y => (List.range w).foldl
          (fun m x => m.set ((x + y * w) % M) (a x y)) m) m0)
        (fun p hp q hq he => by
          simp only at he
          rw [hmod p hp, hmod q hq] at he
          omega)
        x hx (by
          simp only
          rw [hmod x hx, ihlen]
          omega)
      simp only at key
      rw [hmod x hx] at key
      exact key

theorem CreateMask_spec (mgr : BitmaskManager) (tex : Texture) (img : Image)
    (hsize : tex.size.1 * tex.size.2 < 4294967296) :
    (mgr.CreateMask tex img).1.length = tex.size.1 * tex.size.2 ∧
    ∀ x y, x < tex.size.1 → y < tex.size.2 →
      (mgr.CreateMask tex img).1[x + y * tex.size.1]? = some (img.alpha x y) := by
  have hc : tex.size.2 * tex.size.1 = tex.size.1 * tex.size.2 := Nat.mul_comm _ _
  have hmod : (tex.size.2 * tex.size.1) % 4294967296 = tex.size.2 * tex.size.1 :=
    Nat.mod_eq_of_lt (by omega)
  have hrows := createMask_rows tex.size.1 4294967296 img.alpha
    (List.replicate ((tex.size.2 * tex.size.1) % 4294967296) 0) tex.size.2
    (by rw [List.length_replicate, hmod]) (by rw [List.length_replicate, hmod]; omega)
  simp only [BitmaskManager.CreateMask]
  refine ⟨?_, ?_⟩
  · rw [hrows.1, List.length_replicate, hmod, hc]
  · intro x y hx hy
    exact hrows.2 y hy x hx

/-- The calls listed by `pixelHitCalls` are those of `pixelHit`: the body returns true
exactly when both calls are made and both bytes exceed the threshold. -/
theorem pixelHit_iff_calls (oob : Nat → Nat) (Object1 Object2 : Sprite)
    (mask1 mask2 : List Nat) (AlphaLimit : Nat) (i j : Int) :
    pixelHit oob Object1 Object2 mask1 mask2 AlphaLimit i j = true ↔
      (pixelHitCalls oob Object1 Object2 mask1 mask2 AlphaLimit i j).length = 2 ∧
      ∀ c ∈ pixelHitCalls oob Object1 Object2 mask1 mask2 AlphaLimit i j,
        AlphaLimit < GetPixel oob c.1 c.2.1 c.2.2.1 c.2.2.2 := by
  unfold pixelHit pixelHitCalls
  simp only [gt_iff_lt]
  by_cases hb : 0 < (Object1.getInverseTransform.transformPoint ↑i ↑j).1 ∧
      0 < (Object1.getInverseTransform.transformPoint ↑i ↑j).2 ∧
      0 < (Object2.getInverseTransform.transformPoint ↑i ↑j).1 ∧
      0 < (Object2.getInverseTransform.transformPoint ↑i ↑j).2 ∧
      (Object1.getInverseTransform.transformPoint ↑i ↑j).1 < ↑Object1.textureRect.width ∧
      (Object1.getInverseTransform.transformPoint ↑i ↑j).2 < ↑Object1.textureRect.height ∧
      (Object2.getInverseTransform.transformPoint ↑i ↑j).1 < ↑Object2.textureRect.width ∧
      (Object2.getInverseTransform.transformPoint ↑i ↑j).2 < ↑Object2.textureRect.height
  · rw [if_pos hb, if_pos hb]
    by_cases h1 : AlphaLimit < GetPixel oob mask1 Object1.texture
        (toUnsigned (toInt (Object1.getInverseTransform.transformPoint ↑i ↑j).1
          + Object1.textureRect.left))
        (toUnsigned (toInt (Object1.getInverseTransform.transformPoint ↑i ↑j).2
          + Object1.textureRect.top))
    · rw [if_pos h1]
      by_cases h2 : AlphaLimit < GetPixel oob mask2 Object2.texture
          (toUnsigned (toInt (Object2.getInverseTransform.transformPoint ↑i ↑j).1
            + Object2.textureRect.left))
          (toUnsigned (toInt (Object2.getInverseTransform.transformPoint ↑i ↑j).2
            + Object2.textureRect.top))
      · simp [h1, h2]
      · simp [h1, h2]
    · rw [if_neg h1]
      simp [h1]
  · rw [if_neg hb, if_neg hb]
    simp

/-! ## Facts about the concrete sprites -/

theorem plainSprite_nondegenerate :
    (plainSprite (solidTexture 1 10 10) 0 0).Nondegenerate ∧
    (plainSprite (solidTexture 1 10 10) 8 8).Nondegenerate ∧
    (plainSprite (solidTexture 1 10 10) 20 0).Nondegenerate := by
  simp only [Sprite.Nondegenerate, Sprite.HasInvertibleTransform, plainSprite, solidTexture]
  norm_num

theorem turnedSprite_nondegenerate :
    (turnedSprite (solidTexture 2 10 10) 9 17 1 1).Nondegenerate := by
  simp only [Sprite.Nondegenerate, Sprite.HasInvertibleTransform, turnedSprite, solidTexture]
  norm_num

theorem plainSprite_positiveScale (tex : Texture) (x y : ℚ) :
    (plainSprite tex x y).HasPositiveScale := by
  simp only [Sprite.HasPositiveScale, plainSprite]
  norm_num

theorem plainSprite_subRectInside (tex : Texture) (x y : ℚ) :
    (plainSprite tex x y).SubRectInsideTexture := by
  simp only [Sprite.SubRectInsideTexture, plainSprite]
  omega

theorem GetMask_length_of_lookup_none (mgr : BitmaskManager) (tex : Texture)
    (hn : mgr.Bitmasks.lookup tex.id = none)
    (hs : tex.size.1 * tex.size.2 < 4294967296) :
    (mgr.GetMask tex).1.length = tex.size.1 * tex.size.2 := by
  rw [GetMask_of_lookup_none mgr tex hn]
  exact (CreateMask_spec mgr tex tex.copyToImage hs).1

theorem GetMask_length_of_lookup_some (mgr : BitmaskManager) (tex : Texture)
    (mask : List Nat) (hm : mgr.Bitmasks.lookup tex.id = some mask) :
    (mgr.GetMask tex).1.length = mask.length := by
  rw [GetMask_of_lookup_some mgr tex mask hm]

/-! ## The claims -/

/-- C1: for two sprites whose texture rectangles have positive width and height and
whose transforms are invertible (non-zero scale, `(cosine, sine) ≠ (0, 0)`),
`BoundingBoxTest` returns true if and only if the closed rectangles spanned by
the four transformed corners of the two sprites have a common point. -/
theorem BoundingBoxTest_iff_regions_meet (Object1 Object2 : Sprite)
    (h1 : Object1.Nondegenerate) (h2 : Object2.Nondegenerate) :
    BoundingBoxTest Object1 Object2 = true ↔
      ((OrientedBoundingBox.ofSprite Object1).region ∩
        (OrientedBoundingBox.ofSprite Object2).region).Nonempty := by
  constructor
  · intro h
    obtain ⟨p, hp1, hp2⟩ := common_point_of_BoundingBoxTest _ _ h1 h2 h
    exact ⟨p, hp1, hp2⟩
  · rintro ⟨p, hp1, hp2⟩
    exact BoundingBoxTest_of_common_point _ _ p hp1 hp2

/-- Witness of C1 on a rotated case: a 10 x 10 sprite at the origin and a 10 x 10
sprite turned by the angle of cosine 3/5 and sine 4/5 at (9, 17). Their
axis-aligned bounding boxes intersect, `BoundingBoxTest` returns false, and the
two rectangles have no common point. -/
theorem BoundingBoxTest_iff_regions_meet_witness :
    ((plainSprite (solidTexture 1 10 10) 0 0).getGlobalBounds.intersects
      (turnedSprite (solidTexture 2 10 10) 9 17 1 1).getGlobalBounds).1 = true ∧
    BoundingBoxTest (plainSprite (solidTexture 1 10 10) 0 0)
      (turnedSprite (solidTexture 2 10 10) 9 17 1 1) = false ∧
    ¬ ((OrientedBoundingBox.ofSprite (plainSprite (solidTexture 1 10 10) 0 0)).region ∩
      (OrientedBoundingBox.ofSprite
        (turnedSprite (solidTexture 2 10 10) 9 17 1 1)).region).Nonempty :=
  ⟨by decide!, by decide!, fun h =>
    absurd ((BoundingBoxTest_iff_regions_meet (plainSprite (solidTexture 1 10 10) 0 0)
      (turnedSprite (solidTexture 2 10 10) 9 17 1 1) plainSprite_nondegenerate.1
      turnedSprite_nondegenerate).2 h) (by decide!)⟩

/-- C2: `PixelPerfectTest` returns true exactly when the two world-space bounding
boxes intersect and some integer pixel `(i, j)` of the scanned range of the
intersection rectangle (`i` from `trunc(left)` while `i < left + width`, `j` from
`trunc(top)` while `j < top + height`) has local coordinates strictly inside
both sub-rectangles and an alpha value above the threshold in both masks. -/
theorem PixelPerfectTest_iff_exists_pixel (oob : Nat → Nat) (mgr : BitmaskManager)
    (Object1 Object2 : Sprite) (AlphaLimit : Nat) :
    (PixelPerfectTest oob mgr Object1 Object2 AlphaLimit).1 = true ↔
      (Object1.getGlobalBounds.intersects Object2.getGlobalBounds).1 = true ∧
      ∃ i j : Int,
        toInt (Object1.getGlobalBounds.intersects Object2.getGlobalBounds).2.left ≤ i ∧
        (i : ℚ) < (Object1.getGlobalBounds.intersects Object2.getGlobalBounds).2.left
          + (Object1.getGlobalBounds.intersects Object2.getGlobalBounds).2.width ∧
        toInt (Object1.getGlobalBounds.intersects Object2.getGlobalBounds).2.top ≤ j ∧
        (j : ℚ) < (Object1.getGlobalBounds.intersects Object2.getGlobalBounds).2.top
          + (Object1.getGlobalBounds.intersects Object2.getGlobalBounds).2.height ∧
        (0 < (Object1.getInverseTransform.transformPoint i j).1 ∧
          (Object1.getInverseTransform.transformPoint i j).1 < Object1.textureRect.width ∧
          0 < (Object1.getInverseTransform.transformPoint i j).2 ∧
          (Object1.getInverseTransform.transformPoint i j).2 < Object1.textureRect.height) ∧
        (0 < (Object2.getInverseTransform.transformPoint i j).1 ∧
          (Object2.getInverseTransform.transformPoint i j).1 < Object2.textureRect.width ∧
          0 < (Object2.getInverseTransform.transformPoint i j).2 ∧
          (Object2.getInverseTransform.transformPoint i j).2 < Object2.textureRect.height) ∧
        AlphaLimit < GetPixel oob (mgr.GetMask Object1.texture).1 Object1.texture
          (toUnsigned (toInt (Object1.getInverseTransform.transformPoint i j).1
            + Object1.textureRect.left))
          (toUnsigned (toInt (Object1.getInverseTransform.transformPoint i j).2
            + Object1.textureRect.top)) ∧
        AlphaLimit < GetPixel oob
          ((mgr.GetMask Object1.texture).2.GetMask Object2.texture).1 Object2.texture
          (toUnsigned (toInt (Object2.getInverseTransform.transformPoint i j).1
            + Object2.textureRect.left))
          (toUnsigned (toInt (Object2.getInverseTransform.transformPoint i j).2
            + Object2.textureRect.top)) :=
  PixelPerfectTest_eq_true_iff oob mgr Object1 Object2 AlphaLimit

/-- C3: `CircleTest` returns true exactly when the squared distance between the
centres of the two world-space bounding boxes is at most the squared sum of the
radii `(width * scale.x + height * scale.y) / 4`, and false otherwise. -/
theorem CircleTest_iff (Object1 Object2 : Sprite) :
    (CircleTest Object1 Object2 = true ↔
      ((Object1.getGlobalBounds.left + Object1.getGlobalBounds.width / 2)
          - (Object2.getGlobalBounds.left + Object2.getGlobalBounds.width / 2)) *
        ((Object1.getGlobalBounds.left + Object1.getGlobalBounds.width / 2)
          - (Object2.getGlobalBounds.left + Object2.getGlobalBounds.width / 2)) +
        ((Object1.getGlobalBounds.top + Object1.getGlobalBounds.height / 2)
          - (Object2.getGlobalBounds.top + Object2.getGlobalBounds.height / 2)) *
        ((Object1.getGlobalBounds.top + Object1.getGlobalBounds.height / 2)
          - (Object2.getGlobalBounds.top + Object2.getGlobalBounds.height / 2))
      ≤ ((Object1.textureRect.width * Object1.scale.1
            + Object1.textureRect.height * Object1.scale.2) / 4
          + (Object2.textureRect.width * Object2.scale.1
            + Object2.textureRect.height * Object2.scale.2) / 4) *
        ((Object1.textureRect.width * Object1.scale.1
            + Object1.textureRect.height * Object1.scale.2) / 4
          + (Object2.textureRect.width * Object2.scale.1
            + Object2.textureRect.height * Object2.scale.2) / 4)) ∧
    (CircleTest Object1 Object2 = false ↔
      ((Object1.textureRect.width * Object1.scale.1
            + Object1.textureRect.height * Object1.scale.2) / 4
          + (Object2.textureRect.width * Object2.scale.1
            + Object2.textureRect.height * Object2.scale.2) / 4) *
        ((Object1.textureRect.width * Object1.scale.1
            + Object1.textureRect.height * Object1.scale.2) / 4
          + (Object2.textureRect.width * Object2.scale.1
            + Object2.textureRect.height * Object2.scale.2) / 4)
      < ((Object1.getGlobalBounds.left + Object1.getGlobalBounds.width / 2)
          - (Object2.getGlobalBounds.left + Object2.getGlobalBounds.width / 2)) *
        ((Object1.getGlobalBounds.left + Object1.getGlobalBounds.width / 2)
          - (Object2.getGlobalBounds.left + Object2.getGlobalBounds.width / 2)) +
        ((Object1.getGlobalBounds.top + Object1.getGlobalBounds.height / 2)
          - (Object2.getGlobalBounds.top + Object2.getGlobalBounds.height / 2)) *
        ((Object1.getGlobalBounds.top + Object1.getGlobalBounds.height / 2)
          - (Object2.getGlobalBounds.top + Object2.getGlobalBounds.height / 2))) := by
  constructor
  · simp [CircleTest, GetSpriteCenter, GetSpriteSize]
  · simp [CircleTest, GetSpriteCenter, GetSpriteSize]

/-- C4: when the intersection rectangle of the two world-space bounding boxes is
empty (it has no positive width or no positive height), `PixelPerfectTest`
returns false, whatever the threshold, the textures, the masks and the cache. -/
theorem PixelPerfectTest_false_of_empty_intersection (oob : Nat → Nat)
    (mgr : BitmaskManager) (Object1 Object2 : Sprite) (AlphaLimit : Nat)
    (h : ¬ (max Object1.getGlobalBounds.left Object2.getGlobalBounds.left
            < min (Object1.getGlobalBounds.left + Object1.getGlobalBounds.width)
                (Object2.getGlobalBounds.left + Object2.getGlobalBounds.width) ∧
          max Object1.getGlobalBounds.top Object2.getGlobalBounds.top
            < min (Object1.getGlobalBounds.top + Object1.getGlobalBounds.height)
                (Object2.getGlobalBounds.top + Object2.getGlobalBounds.height))) :
    (PixelPerfectTest oob mgr Object1 Object2 AlphaLimit).1 = false := by
  have hi : (Object1.getGlobalBounds.intersects Object2.getGlobalBounds).1 = false := by
    rw [← Bool.not_eq_true]
    rw [intersects_iff _ _ (getGlobalBounds_width_nonneg _) (getGlobalBounds_height_nonneg _)
      (getGlobalBounds_width_nonneg _) (getGlobalBounds_height_nonneg _)]
    exact h
  simp [PixelPerfectTest, hi]

/-- Witness of C4: two fully opaque 10 x 10 sprites at (0, 0) and (20, 0). -/
theorem PixelPerfectTest_false_of_empty_intersection_witness :
    (PixelPerfectTest (fun _ => 0) ⟨[]⟩ (plainSprite (solidTexture 1 10 10) 0 0)
      (plainSprite (solidTexture 1 10 10) 20 0) 0).1 = false :=
  PixelPerfectTest_false_of_empty_intersection (fun _ => 0) ⟨[]⟩
    (plainSprite (solidTexture 1 10 10) 0 0) (plainSprite (solidTexture 1 10 10) 20 0) 0
    (by decide!)

/-- C5, as stated, fails: two sprites whose texture rectangle is empty (as after a
failed texture load), at (0, 0) and (5, 5), have bounding boxes without a
common point, and `BoundingBoxTest` returns true. -/
theorem BoundingBoxTest_true_on_disjoint_bounds :
    (∀ p : Vector2f, ¬ (p ∈ (plainSprite (solidTexture 1 0 0) 0 0).getGlobalBounds.closedRegion ∧
      p ∈ (plainSprite (solidTexture 2 0 0) 5 5).getGlobalBounds.closedRegion)) ∧
    BoundingBoxTest (plainSprite (solidTexture 1 0 0) 0 0)
      (plainSprite (solidTexture 2 0 0) 5 5) = true := by
  refine ⟨?_, by decide!⟩
  have hA : (plainSprite (solidTexture 1 0 0) 0 0).getGlobalBounds = ⟨0, 0, 0, 0⟩ := by decide!
  have hB : (plainSprite (solidTexture 2 0 0) 5 5).getGlobalBounds = ⟨5, 5, 0, 0⟩ := by decide!
  rintro p ⟨h1, h2⟩
  rw [hA] at h1
  rw [hB] at h2
  simp only [FloatRect.closedRegion, Set.mem_setOf_eq] at h1 h2
  linarith [h1.2.1, h2.1]

/-- C5, amended: for two sprites whose texture rectangles have positive width and
height and whose transforms are invertible, `BoundingBoxTest` returns false
when the two world-space axis-aligned bounding boxes share no point. -/
theorem BoundingBoxTest_false_of_disjoint_bounds (Object1 Object2 : Sprite)
    (h1 : Object1.Nondegenerate) (h2 : Object2.Nondegenerate)
    (hd : ∀ p : Vector2f, ¬ (p ∈ Object1.getGlobalBounds.closedRegion ∧
      p ∈ Object2.getGlobalBounds.closedRegion)) :
    BoundingBoxTest Object1 Object2 = false := by
  rw [← Bool.not_eq_true]
  intro h
  obtain ⟨p, hp1, hp2⟩ := common_point_of_BoundingBoxTest _ _ h1 h2 h
  exact hd p ⟨region_subset_globalBounds _ h1.1.le h1.2.1.le hp1,
    region_subset_globalBounds _ h2.1.le h2.2.1.le hp2⟩

/-- Witness of the amended C5: two 10 x 10 sprites at (0, 0) and (20, 0). -/
theorem BoundingBoxTest_false_of_disjoint_bounds_witness :
    BoundingBoxTest (plainSprite (solidTexture 1 10 10) 0 0)
      (plainSprite (solidTexture 1 10 10) 20 0) = false :=
  BoundingBoxTest_false_of_disjoint_bounds (plainSprite (solidTexture 1 10 10) 0 0)
    (plainSprite (solidTexture 1 10 10) 20 0) plainSprite_nondegenerate.1
    plainSprite_nondegenerate.2.2
    (by
      have hA : (plainSprite (solidTexture 1 10 10) 0 0).getGlobalBounds = ⟨0, 0, 10, 10⟩ := by
        decide!
      have hB : (plainSprite (solidTexture 1 10 10) 20 0).getGlobalBounds
          = ⟨20, 0, 10, 10⟩ := by
        decide!
      rintro p ⟨h1, h2⟩
      rw [hA] at h1
      rw [hB] at h2
      simp only [FloatRect.closedRegion, Set.mem_setOf_eq] at h1 h2
      linarith [h1.2.1, h2.1])

/-- C6, evaluated at the failing input: for a fully opaque 1 x 1 texture and two
plain sprites showing it at the same integer position, `PixelPerfectTest` with
threshold 0 returns false, whatever the cache holds. -/
theorem PixelPerfectTest_single_pixel_false (oob : Nat → Nat) (mgr : BitmaskManager)
    (id : Nat) (m n : Int) :
    (PixelPerfectTest oob mgr (plainSprite (solidTexture id 1 1) m n)
      (plainSprite (solidTexture id 1 1) m n) 0).1 = false := by
  rw [← Bool.not_eq_true]
  intro h
  obtain ⟨i, j, c1, -⟩ := exists_pixel_of_PixelPerfectTest oob mgr _ _ _ h
  obtain ⟨hx0, hx1, -, -⟩ := c1
  have e : ((plainSprite (solidTexture id 1 1) m n).getInverseTransform.transformPoint i j).1
      = (i : ℚ) - m := by
    simp [plainSprite, Sprite.getInverseTransform, Sprite.getTransform, Transform.getInverse,
      Transform.transformPoint]
    ring
  rw [e] at hx0 hx1
  simp only [plainSprite, solidTexture] at hx1
  have a0 : m < i := by
    have : (m : ℚ) < i := by linarith
    exact_mod_cast this
  have a1 : i < m + 1 := by
    have : (i : ℚ) < ((m + 1 : Int) : ℚ) := by push_cast; push_cast at hx1; linarith
    exact_mod_cast this
  omega

/-- C7, as stated, fails: a 10 x 10 sprite with scale `(0, 1)` and a turned 5 x 5
sprite at (5, 3), both fully opaque, make `PixelPerfectTest` return true and
`BoundingBoxTest` return false. -/
theorem PixelPerfectTest_true_BoundingBoxTest_false :
    (PixelPerfectTest (fun _ => 0) ⟨[]⟩ (turnedSprite (solidTexture 1 10 10) 0 0 0 1)
      (turnedSprite (solidTexture 2 5 5) 5 3 1 1) 0).1 = true ∧
    BoundingBoxTest (turnedSprite (solidTexture 1 10 10) 0 0 0 1)
      (turnedSprite (solidTexture 2 5 5) 5 3 1 1) = false := by
  decide!

/-- C7, amended: for two sprites whose transforms are invertible (non-zero scale,
`(cosine, sine) ≠ (0, 0)`) and every threshold, if `PixelPerfectTest` returns
true then `BoundingBoxTest` returns true. -/
theorem BoundingBoxTest_of_PixelPerfectTest (oob : Nat → Nat) (mgr : BitmaskManager)
    (Object1 Object2 : Sprite) (AlphaLimit : Nat)
    (h1 : Object1.HasInvertibleTransform) (h2 : Object2.HasInvertibleTransform)
    (h : (PixelPerfectTest oob mgr Object1 Object2 AlphaLimit).1 = true) :
    BoundingBoxTest Object1 Object2 = true := by
  obtain ⟨i, j, c1, c2⟩ := exists_pixel_of_PixelPerfectTest oob mgr _ _ _ h
  exact BoundingBoxTest_of_common_point _ _ ((i : ℚ), (j : ℚ))
    (mem_region_of_local _ h1 _ _ c1.1 c1.2.1 c1.2.2.1 c1.2.2.2)
    (mem_region_of_local _ h2 _ _ c2.1 c2.2.1 c2.2.2.1 c2.2.2.2)

/-- Witness of the amended C7: two fully opaque 10 x 10 sprites at (0, 0) and (8, 8). -/
theorem BoundingBoxTest_of_PixelPerfectTest_witness :
    BoundingBoxTest (plainSprite (solidTexture 1 10 10) 0 0)
      (plainSprite (solidTexture 1 10 10) 8 8) = true :=
  BoundingBoxTest_of_PixelPerfectTest (fun _ => 0) ⟨[]⟩
    (plainSprite (solidTexture 1 10 10) 0 0) (plainSprite (solidTexture 1 10 10) 8 8) 0
    plainSprite_nondegenerate.1.2.2 plainSprite_nondegenerate.2.1.2.2 (by decide!)

/-- C8, as stated, fails: two fully opaque 10 x 10 sprites at (0, 0) and (8, 8) make
`PixelPerfectTest` return true and `CircleTest` return false. -/
theorem PixelPerfectTest_true_CircleTest_false :
    (PixelPerfectTest (fun _ => 0) ⟨[]⟩ (plainSprite (solidTexture 1 10 10) 0 0)
      (plainSprite (solidTexture 1 10 10) 8 8) 0).1 = true ∧
    CircleTest (plainSprite (solidTexture 1 10 10) 0 0)
      (plainSprite (solidTexture 1 10 10) 8 8) = false := by
  decide!

/-- C8, amended: for two sprites with positive scale factors and a unit
`(cosine, sine)` and every threshold, if `PixelPerfectTest` returns true then the
squared distance between the centres that `CircleTest` compares is at most four
times the squared sum of its two radii, that is, the circle test with doubled
radii holds. -/
theorem center_distance_le_of_PixelPerfectTest (oob : Nat → Nat) (mgr : BitmaskManager)
    (Object1 Object2 : Sprite) (AlphaLimit : Nat)
    (h1 : Object1.HasPositiveScale) (h2 : Object2.HasPositiveScale)
    (h : (PixelPerfectTest oob mgr Object1 Object2 AlphaLimit).1 = true) :
    ((GetSpriteCenter Object1).1 - (GetSpriteCenter Object2).1)
        * ((GetSpriteCenter Object1).1 - (GetSpriteCenter Object2).1)
      + ((GetSpriteCenter Object1).2 - (GetSpriteCenter Object2).2)
        * ((GetSpriteCenter Object1).2 - (GetSpriteCenter Object2).2)
      ≤ 4 * ((((GetSpriteSize Object1).1 + (GetSpriteSize Object1).2) / 4
            + ((GetSpriteSize Object2).1 + (GetSpriteSize Object2).2) / 4)
          * (((GetSpriteSize Object1).1 + (GetSpriteSize Object1).2) / 4
            + ((GetSpriteSize Object2).1 + (GetSpriteSize Object2).2) / 4)) := by
  obtain ⟨i, j, c1, c2⟩ := exists_pixel_of_PixelPerfectTest oob mgr _ _ _ h
  obtain ⟨r1, d1⟩ := sq_dist_center_le _ h1 _ _ c1.1 c1.2.1 c1.2.2.1 c1.2.2.2
  obtain ⟨r2, d2⟩ := sq_dist_center_le _ h2 _ _ c2.1 c2.2.1 c2.2.2.1 c2.2.2.2
  have key := sq_dist_le_of_le
    ((i : ℚ) - (GetSpriteCenter Object2).1, (j : ℚ) - (GetSpriteCenter Object2).2)
    ((i : ℚ) - (GetSpriteCenter Object1).1, (j : ℚ) - (GetSpriteCenter Object1).2)
    _ _ r2 r1 d2 d1
  simp only at key
  linarith

/-- Witness of the amended C8: two fully opaque 10 x 10 sprites at (0, 0) and (8, 8). -/
theorem center_distance_le_of_PixelPerfectTest_witness :
    ((GetSpriteCenter (plainSprite (solidTexture 1 10 10) 0 0)).1
        - (GetSpriteCenter (plainSprite (solidTexture 1 10 10) 8 8)).1)
        * ((GetSpriteCenter (plainSprite (solidTexture 1 10 10) 0 0)).1
        - (GetSpriteCenter (plainSprite (solidTexture 1 10 10) 8 8)).1)
      + ((GetSpriteCenter (plainSprite (solidTexture 1 10 10) 0 0)).2
        - (GetSpriteCenter (plainSprite (solidTexture 1 10 10) 8 8)).2)
        * ((GetSpriteCenter (plainSprite (solidTexture 1 10 10) 0 0)).2
        - (GetSpriteCenter (plainSprite (solidTexture 1 10 10) 8 8)).2)
      ≤ 4 * ((((GetSpriteSize (plainSprite (solidTexture 1 10 10) 0 0)).1
              + (GetSpriteSize (plainSprite (solidTexture 1 10 10) 0 0)).2) / 4
            + ((GetSpriteSize (plainSprite (solidTexture 1 10 10) 8 8)).1
              + (GetSpriteSize (plainSprite (solidTexture 1 10 10) 8 8)).2) / 4)
          * (((GetSpriteSize (plainSprite (solidTexture 1 10 10) 0 0)).1
              + (GetSpriteSize (plainSprite (solidTexture 1 10 10) 0 0)).2) / 4
            + ((GetSpriteSize (plainSprite (solidTexture 1 10 10) 8 8)).1
              + (GetSpriteSize (plainSprite (solidTexture 1 10 10) 8 8)).2) / 4)) :=
  center_distance_le_of_PixelPerfectTest (fun _ => 0) ⟨[]⟩
    (plainSprite (solidTexture 1 10 10) 0 0) (plainSprite (solidTexture 1 10 10) 8 8) 0
    (plainSprite_positiveScale _ _ _) (plainSprite_positiveScale _ _ _) (by decide!)

/-- C9: `GetPixel` returns 0 when `x` exceeds the width or `y` exceeds the height of
the texture; otherwise it returns the byte `mask[x + y*width]`, the index being
computed in `unsigned int`, which is the plain `x + y*width` whenever
`width * (height + 1)` fits in 32 bits. -/
theorem GetPixel_spec (oob : Nat → Nat) (mask : List Nat) (tex : Texture) (x y : Nat) :
    (x > tex.size.1 ∨ y > tex.size.2 → GetPixel oob mask tex x y = 0) ∧
    (x ≤ tex.size.1 → y ≤ tex.size.2 →
      GetPixel oob mask tex x y = deref oob mask ((x + y * tex.size.1) % 4294967296)) ∧
    (x ≤ tex.size.1 → y ≤ tex.size.2 → tex.size.1 * (tex.size.2 + 1) < 4294967296 →
      GetPixel oob mask tex x y = deref oob mask (x + y * tex.size.1)) := by
  refine ⟨fun h => ?_, fun hx hy => ?_, fun hx hy hsz => ?_⟩
  · simp [GetPixel, h]
  · have h : ¬(x > tex.size.1 ∨ y > tex.size.2) := by omega
    simp [GetPixel, h]
  · have h : ¬(x > tex.size.1 ∨ y > tex.size.2) := by omega
    have h1 : y * tex.size.1 ≤ tex.size.2 * tex.size.1 := Nat.mul_le_mul_right _ hy
    have h2 : x + y * tex.size.1 < 4294967296 := by
      have : tex.size.1 * (tex.size.2 + 1) = tex.size.1 + tex.size.2 * tex.size.1 := by ring
      omega
    simp [GetPixel, h, Nat.mod_eq_of_lt h2]

/-- Witness of C9 on a 2 x 2 texture: the pixel (1, 1) is the fourth byte of the mask. -/
theorem GetPixel_spec_witness :
    GetPixel (fun _ => 0) [10, 20, 30, 40] ⟨7, (2, 2), fun _ _ => 0⟩ 1 1
      = deref (fun _ => 0) [10, 20, 30, 40] (1 + 1 * 2) :=
  (GetPixel_spec (fun _ => 0) [10, 20, 30, 40] ⟨7, (2, 2), fun _ _ => 0⟩ 1 1).2.2
    (by decide) (by decide) (by decide)

/-- C10, evaluated on a 2 x 2 texture whose mask is fully opaque: at `x = width`,
`y = 0` `GetPixel` returns 255 rather than 0, and at `x = width`, `y = height`
it reads index 6 of a mask of 4 entries. -/
theorem GetPixel_at_boundary :
    GetPixel (fun _ => 0) [255, 255, 255, 255] ⟨7, (2, 2), fun _ _ => 255⟩ 2 0 = 255 ∧
    GetPixelIndex ⟨7, (2, 2), fun _ _ => 255⟩ 2 2 = some 6 ∧
    ¬ (6 < [255, 255, 255, 255].length) := by
  decide

/-- C11: `GetMask` called twice in a row on the same texture identity returns the same
mask both times and the second call leaves the cache unchanged; `GetMask` on
two textures of different identity leaves one cache entry under each of the two
identities, whatever their pixels are, and two new entries when neither had one. -/
theorem GetMask_twice_same_mask (mgr : BitmaskManager) (tex tex2 other : Texture) (hid : tex2.id = tex.id)
    (hne : other.id ≠ tex.id) :
    ((mgr.GetMask tex).2.GetMask tex2).1 = (mgr.GetMask tex).1 ∧
    ((mgr.GetMask tex).2.GetMask tex2).2 = (mgr.GetMask tex).2 ∧
    ((mgr.GetMask tex).2.GetMask other).2.Bitmasks.lookup tex.id = some (mgr.GetMask tex).1 ∧
    ((mgr.GetMask tex).2.GetMask other).2.Bitmasks.lookup other.id
      = some ((mgr.GetMask tex).2.GetMask other).1 ∧
    (mgr.Bitmasks.lookup tex.id = none → mgr.Bitmasks.lookup other.id = none →
      ((mgr.GetMask tex).2.GetMask other).2.Bitmasks.length = mgr.Bitmasks.length + 2) := by
  have h1 := lookup_GetMask mgr tex
  have h2 : (mgr.GetMask tex).2.Bitmasks.lookup tex2.id = some (mgr.GetMask tex).1 := by
    rw [hid]; exact h1
  have h3 := GetMask_of_lookup_some _ tex2 _ h2
  refine ⟨by rw [h3], by rw [h3], lookup_GetMask_of_some _ _ _ _ h1, lookup_GetMask _ _, ?_⟩
  intro n1 n2
  have e1 : (mgr.GetMask tex).2.Bitmasks = (tex.id, (mgr.GetMask tex).1) :: mgr.Bitmasks := by
    rw [GetMask_of_lookup_none mgr tex n1]
    simp only [BitmaskManager.CreateMask]
    rw [mapInsert_of_lookup_none _ _ _ n1]
  have n3 : (mgr.GetMask tex).2.Bitmasks.lookup other.id = none := by
    rw [e1, lookup_cons_of_ne _ _ _ _ hne]
    exact n2
  rw [GetMask_of_lookup_none _ other n3]
  simp only [BitmaskManager.CreateMask]
  rw [mapInsert_of_lookup_none _ _ _ n3, List.length_cons, e1, List.length_cons]

/-- Witness of C11: two 1 x 1 textures with the same pixels at the addresses 1 and 2,
starting from the empty cache. -/
theorem GetMask_twice_same_mask_witness :
    (((⟨[]⟩ : BitmaskManager).GetMask (solidTexture 1 1 1)).2.GetMask
      (solidTexture 2 1 1)).2.Bitmasks.length = (⟨[]⟩ : BitmaskManager).Bitmasks.length + 2 :=
  (GetMask_twice_same_mask ⟨[]⟩ (solidTexture 1 1 1) (solidTexture 1 1 1) (solidTexture 2 1 1)
    rfl (by decide)).2.2.2.2 rfl rfl

/-- C12: for a texture without cache entry whose pixel count `width * height` fits in
`unsigned int`, `GetMask` returns a mask of exactly `width * height` entries with
`mask[x + y*width]` equal to the alpha channel of the pixel `(x, y)` for all
`x < width`, `y < height`; afterwards the cache maps the texture identity to that
mask; when an entry already exists, `GetMask` returns it and leaves the cache as
it is. -/
theorem GetMask_builds_alpha_mask (mgr : BitmaskManager) (tex : Texture) :
    (mgr.Bitmasks.lookup tex.id = none → tex.size.1 * tex.size.2 < 4294967296 →
      (mgr.GetMask tex).1.length = tex.size.1 * tex.size.2 ∧
      ∀ x y, x < tex.size.1 → y < tex.size.2 →
        (mgr.GetMask tex).1[x + y * tex.size.1]? = some (tex.alpha x y)) ∧
    (mgr.Bitmasks.lookup tex.id = none →
      (mgr.GetMask tex).2.Bitmasks.lookup tex.id = some (mgr.GetMask tex).1) ∧
    (∀ mask, mgr.Bitmasks.lookup tex.id = some mask → mgr.GetMask tex = (mask, mgr)) := by
  refine ⟨fun hn hs => ?_, fun _ => lookup_GetMask mgr tex,
    fun mask hm => GetMask_of_lookup_some mgr tex mask hm⟩
  rw [GetMask_of_lookup_none mgr tex hn]
  exact CreateMask_spec mgr tex tex.copyToImage hs

/-- Witness of C12: a 2 x 2 texture and the empty cache. -/
theorem GetMask_builds_alpha_mask_witness :
    ((⟨[]⟩ : BitmaskManager).GetMask (solidTexture 3 2 2)).1.length = 2 * 2 ∧
    ∀ x y, x < 2 → y < 2 →
      ((⟨[]⟩ : BitmaskManager).GetMask (solidTexture 3 2 2)).1[x + y * 2]? = some 255 :=
  (GetMask_builds_alpha_mask ⟨[]⟩ (solidTexture 3 2 2)).1 rfl (by decide)

/-- C13, evaluated at the failing input: starting from the empty cache,
`CreateTextureAndBitmask` loads a 1 x 1 image of alpha 255 into the texture at
address 7 and then a 1 x 1 image of alpha 0 into the same texture. Both calls
succeed, the texture then holds the pixel of alpha 0, and the only cache entry
for it is still the mask `[255]` of the first image. -/
theorem stale_mask_after_reload :
    (CreateTextureAndBitmask
      (CreateTextureAndBitmask ⟨[]⟩ (solidTexture 7 0 0) (some (solidImage 1 1 255)) true).2.2
      (CreateTextureAndBitmask ⟨[]⟩ (solidTexture 7 0 0) (some (solidImage 1 1 255)) true).2.1
      (some (solidImage 1 1 0)) true).1 = true ∧
    (CreateTextureAndBitmask
      (CreateTextureAndBitmask ⟨[]⟩ (solidTexture 7 0 0) (some (solidImage 1 1 255)) true).2.2
      (CreateTextureAndBitmask ⟨[]⟩ (solidTexture 7 0 0) (some (solidImage 1 1 255)) true).2.1
      (some (solidImage 1 1 0)) true).2.1.id = 7 ∧
    (CreateTextureAndBitmask
      (CreateTextureAndBitmask ⟨[]⟩ (solidTexture 7 0 0) (some (solidImage 1 1 255)) true).2.2
      (CreateTextureAndBitmask ⟨[]⟩ (solidTexture 7 0 0) (some (solidImage 1 1 255)) true).2.1
      (some (solidImage 1 1 0)) true).2.1.size = (1, 1) ∧
    (CreateTextureAndBitmask
      (CreateTextureAndBitmask ⟨[]⟩ (solidTexture 7 0 0) (some (solidImage 1 1 255)) true).2.2
      (CreateTextureAndBitmask ⟨[]⟩ (solidTexture 7 0 0) (some (solidImage 1 1 255)) true).2.1
      (some (solidImage 1 1 0)) true).2.1.alpha 0 0 = 0 ∧
    (CreateTextureAndBitmask
      (CreateTextureAndBitmask ⟨[]⟩ (solidTexture 7 0 0) (some (solidImage 1 1 255)) true).2.2
      (CreateTextureAndBitmask ⟨[]⟩ (solidTexture 7 0 0) (some (solidImage 1 1 255)) true).2.1
      (some (solidImage 1 1 0)) true).2.2.Bitmasks = [(7, [255])] := by
  decide

/-- C14: for every cache state and every call of `GetMask`, `CreateMask`,
`CreateTextureAndBitmask` or `PixelPerfectTest`, every entry of the cache before
the call is an entry afterwards, every texture identity that had a mask keeps
that mask, and a cache with at most one entry per identity has at most one
entry per identity afterwards. -/
theorem cache_monotonic (mgr : BitmaskManager) (c : CacheCall) :
    (∀ e ∈ mgr.Bitmasks, e ∈ (c.run mgr).Bitmasks) ∧
    (∀ k v, mgr.Bitmasks.lookup k = some v → (c.run mgr).Bitmasks.lookup k = some v) ∧
    ((mgr.Bitmasks.map Prod.fst).Nodup → ((c.run mgr).Bitmasks.map Prod.fst).Nodup) := by
  rcases CacheCall.run_cases mgr c with h | ⟨tex, img, h⟩ | ⟨tex, h⟩ | ⟨t1, t2, h⟩
  · rw [h]; exact ⟨fun e he => he, fun k v hk => hk, fun hnd => hnd⟩
  · rw [h]
    exact ⟨fun e he => mem_CreateMask _ _ _ e he,
      fun k v hk => lookup_CreateMask_of_some _ _ _ k v hk,
      fun hnd => nodup_keys_CreateMask _ _ _ hnd⟩
  · rw [h]
    exact ⟨fun e he => mem_GetMask _ _ e he,
      fun k v hk => lookup_GetMask_of_some _ _ k v hk,
      fun hnd => nodup_keys_GetMask _ _ hnd⟩
  · rw [h]
    exact ⟨fun e he => mem_GetMask _ _ e (mem_GetMask _ _ e he),
      fun k v hk => lookup_GetMask_of_some _ _ k v (lookup_GetMask_of_some _ _ k v hk),
      fun hnd => nodup_keys_GetMask _ _ (nodup_keys_GetMask _ _ hnd)⟩

/-- Witness of C14: the call `GetMask` on a 1 x 1 texture from the empty cache. -/
theorem cache_monotonic_witness :
    (((CacheCall.getMask (solidTexture 1 1 1)).run ⟨[]⟩).Bitmasks.map Prod.fst).Nodup :=
  (cache_monotonic ⟨[]⟩ (CacheCall.getMask (solidTexture 1 1 1))).2.2 List.nodup_nil

/-- C15: for two sprites whose texture rectangles lie inside their textures and whose
masks, as `PixelPerfectTest` fetches them from the cache, have
`width * height` entries, every `GetPixel` call made at any pixel `(i, j)` has
`x < width` and `y < height`, does read the mask, and reads it at an index below
`width * height`, inside the mask. -/
theorem pixelHitCalls_index_safe (oob : Nat → Nat) (mgr : BitmaskManager) (Object1 Object2 : Sprite)
    (AlphaLimit : Nat)
    (h1 : Object1.SubRectInsideTexture) (h2 : Object2.SubRectInsideTexture)
    (hm1 : (mgr.GetMask Object1.texture).1.length
      = Object1.texture.size.1 * Object1.texture.size.2)
    (hm2 : ((mgr.GetMask Object1.texture).2.GetMask Object2.texture).1.length
      = Object2.texture.size.1 * Object2.texture.size.2)
    (i j : Int) :
    ∀ c ∈ pixelHitCalls oob Object1 Object2 (mgr.GetMask Object1.texture).1
        ((mgr.GetMask Object1.texture).2.GetMask Object2.texture).1 AlphaLimit i j,
      c.2.2.1 < c.2.1.size.1 ∧ c.2.2.2 < c.2.1.size.2 ∧
      ∃ k, GetPixelIndex c.2.1 c.2.2.1 c.2.2.2 = some k ∧
        k < c.2.1.size.1 * c.2.1.size.2 ∧ k < c.1.length := by
  intro c hc
  unfold pixelHitCalls at hc
  simp only [gt_iff_lt] at hc
  obtain ⟨l1, t1, w1, ht1, lw1, th1⟩ := h1
  obtain ⟨l2, t2, w2, ht2, lw2, th2⟩ := h2
  split_ifs at hc with hb ha
  · obtain ⟨a1, a2, a3, a4, a5, a6, a7, a8⟩ := hb
    have x1 := toUnsigned_lt _ _ _ _ a1 a5 l1 lw1
    have y1 := toUnsigned_lt _ _ _ _ a2 a6 t1 th1
    have x2 := toUnsigned_lt _ _ _ _ a3 a7 l2 lw2
    have y2 := toUnsigned_lt _ _ _ _ a4 a8 t2 th2
    simp only [List.mem_cons, List.mem_singleton, List.not_mem_nil, or_false] at hc
    rcases hc with rfl | rfl
    · obtain ⟨k, hk1, hk2⟩ := GetPixelIndex_of_lt _ _ _ x1 y1
      exact ⟨x1, y1, k, hk1, hk2, by simpa only [hm1] using hk2⟩
    · obtain ⟨k, hk1, hk2⟩ := GetPixelIndex_of_lt _ _ _ x2 y2
      exact ⟨x2, y2, k, hk1, hk2, by simpa only [hm2] using hk2⟩
  · obtain ⟨a1, a2, a3, a4, a5, a6, a7, a8⟩ := hb
    have x1 := toUnsigned_lt _ _ _ _ a1 a5 l1 lw1
    have y1 := toUnsigned_lt _ _ _ _ a2 a6 t1 th1
    simp only [List.mem_cons, List.mem_singleton, List.not_mem_nil, or_false] at hc
    subst hc
    obtain ⟨k, hk1, hk2⟩ := GetPixelIndex_of_lt _ _ _ x1 y1
    exact ⟨x1, y1, k, hk1, hk2, by simpa only [hm1] using hk2⟩
  · simp at hc

/-- Witness of C15: two fully opaque 10 x 10 sprites at (0, 0) and (8, 8), the empty
cache and the pixel (9, 9), where both `GetPixel` calls are made. -/
theorem pixelHitCalls_index_safe_witness :
    (pixelHitCalls (fun _ => 0) (plainSprite (solidTexture 1 10 10) 0 0)
        (plainSprite (solidTexture 1 10 10) 8 8)
        ((⟨[]⟩ : BitmaskManager).GetMask (plainSprite (solidTexture 1 10 10) 0 0).texture).1
        (((⟨[]⟩ : BitmaskManager).GetMask
          (plainSprite (solidTexture 1 10 10) 0 0).texture).2.GetMask
            (plainSprite (solidTexture 1 10 10) 8 8).texture).1 0 9 9).length = 2 ∧
    ∀ c ∈ pixelHitCalls (fun _ => 0) (plainSprite (solidTexture 1 10 10) 0 0)
        (plainSprite (solidTexture 1 10 10) 8 8)
        ((⟨[]⟩ : BitmaskManager).GetMask (plainSprite (solidTexture 1 10 10) 0 0).texture).1
        (((⟨[]⟩ : BitmaskManager).GetMask
          (plainSprite (solidTexture 1 10 10) 0 0).texture).2.GetMask
            (plainSprite (solidTexture 1 10 10) 8 8).texture).1 0 9 9,
      c.2.2.1 < c.2.1.size.1 ∧ c.2.2.2 < c.2.1.size.2 ∧
      ∃ k, GetPixelIndex c.2.1 c.2.2.1 c.2.2.2 = some k ∧
        k < c.2.1.size.1 * c.2.1.size.2 ∧ k < c.1.length :=
  ⟨by decide!,
    pixelHitCalls_index_safe (fun _ => 0) ⟨[]⟩ (plainSprite (solidTexture 1 10 10) 0 0)
      (plainSprite (solidTexture 1 10 10) 8 8) 0
      (plainSprite_subRectInside _ _ _) (plainSprite_subRectInside _ _ _)
      (GetMask_length_of_lookup_none _ _ rfl (by decide))
      ((GetMask_length_of_lookup_some _ _ _ (lookup_GetMask _ _)).trans
        (GetMask_length_of_lookup_none _ _ rfl (by decide)))
      9 9⟩

/-- C16: `BoundingBoxTest` is symmetric in its two sprites. The four corners of each
box are the images of the corners of a rectangle under the affine transform of
the sprite, so the axes `1-0`, `1-2` of a box and its axes `0-3`, `0-1` agree up
to sign. -/
theorem BoundingBoxTest_symmetric (Object1 Object2 : Sprite) :
    BoundingBoxTest Object1 Object2 = BoundingBoxTest Object2 Object1 := by
  rw [Bool.eq_iff_iff, BoundingBoxTest_eq_true_iff, BoundingBoxTest_eq_true_iff]
  rw [ofSprite_edge Object1, ofSprite_edge Object2]
  rw [overlapOn_comm _ _ ((OrientedBoundingBox.ofSprite Object1).P1
      - (OrientedBoundingBox.ofSprite Object1).P0),
    overlapOn_comm _ _ ((OrientedBoundingBox.ofSprite Object1).P0
      - (OrientedBoundingBox.ofSprite Object1).P3),
    overlapOn_comm _ _ ((OrientedBoundingBox.ofSprite Object2).P0
      - (OrientedBoundingBox.ofSprite Object2).P3),
    overlapOn_comm _ _ ((OrientedBoundingBox.ofSprite Object2).P0
      - (OrientedBoundingBox.ofSprite Object2).P1)]
  rw [← overlapOn_neg _ _ ((OrientedBoundingBox.ofSprite Object1).P1
      - (OrientedBoundingBox.ofSprite Object1).P0),
    ← overlapOn_neg _ _ ((OrientedBoundingBox.ofSprite Object2).P0
      - (OrientedBoundingBox.ofSprite Object2).P1)]
  rw [neg_sub, neg_sub]
  tauto

end Collision
